import Mathlib

/-!
Verification of the BQL query pipeline.

This file shallow-embeds the core of the BQL (boolean query language)
pipeline and proves properties about it:

* the frontend AST builder with macro-alias expansion
  (`query-editor-core/src/analysis.ts`), in namespace `Frontend`;
* the backend envelope structural validator, semantic validator and IR
  compiler (`bql-compiler`, `bql-semantics`), in namespace `Backend`;
* the completion context classifier
  (`query-editor-core/src/completion-syntax.ts`), in namespace `Completion`.

The external grammar parser (lezer) is out of scope of the repository; it is
represented as an oracle `parse : String → SNode` producing concrete syntax
trees, and the tree shapes used in concrete test inputs are modelled from the
grammar node names the spec lists.  The recursive AST builder re-parses macro
expansion strings through this oracle, so its recursion is not structural; it
is embedded with an explicit fuel parameter that strictly bounds call depth,
together with a stabilization theorem showing the fuel marker is unreachable
above a computable bound (this is the termination content of the source's
cycle/depth guards).  JavaScript `Number(...)` parsing is modelled as integer
parsing (no claim computes with non-integer numerics), and the Kotlin
`Double` payloads are likewise modelled as `Int`.
-/

namespace Frontend

/-- Character offsets into the original query text (`types.ts` `SourceSpan`);
`from`/`to` are renamed `fromPos`/`toPos` because `from` is a Lean keyword. -/
structure SourceSpan where
  fromPos : Nat
  toPos : Nat
deriving DecidableEq, Repr

/-- Diagnostic severity (`types.ts` `QueryDiagnostic.severity`). -/
inductive Severity where
  | error
  | warning
  | info
deriving DecidableEq, Repr

/-- A diagnostic (`types.ts` `QueryDiagnostic`). -/
structure QueryDiagnostic where
  severity : Severity
  code : String
  message : String
  fromPos : Nat
  toPos : Nat
  source : String
deriving DecidableEq, Repr

/-- Field types (`types.ts` `FieldType`). -/
inductive FieldType where
  | string
  | number
  | boolean
deriving DecidableEq, Repr

/-- A declared field (`types.ts` `FieldSpec`). -/
structure FieldSpec where
  name : String
  type : FieldType
  operators : Option (List String) := none
  enumValues : Option (List String) := none
  completionProviderKey : Option String := none
deriving DecidableEq, Repr

/-- A macro alias declaration (`types.ts` `MacroAliasSpec`); the constant
discriminator `kind: "macroAlias"` is implicit in the Lean type. -/
structure MacroAliasSpec where
  name : String
  expansion : String
  detail : Option String := none
deriving DecidableEq, Repr

/-- The runtime language spec (`types.ts` `QueryLanguageSpec`);
`operatorsByType` and `completionPolicies` are association lists. -/
structure QueryLanguageSpec where
  version : String
  fields : List FieldSpec
  operatorsByType : List (FieldType × List String)
  functions : Option (List MacroAliasSpec) := none
  completionPolicies : List (String × String) := []
deriving DecidableEq, Repr

/-- A field reference (`types.ts` `FieldRefNode`); the constant discriminator
`kind: "fieldRef"` is implicit in the Lean type. -/
structure FieldRefNode where
  name : String
  span : SourceSpan
deriving DecidableEq, Repr

/-- Scalar literal values (`types.ts` `LiteralNode`); the JavaScript `number`
payload is modelled as `Int`. -/
inductive LiteralNode where
  | stringLiteral (value : String) (span : SourceSpan)
  | booleanLiteral (value : Bool) (span : SourceSpan)
  | numberLiteral (value : Int) (raw : String) (span : SourceSpan)
deriving DecidableEq, Repr

/-- A value (`types.ts` `ValueNode = LiteralNode | ListNode`); a list's items
are scalar literals only, as in the source type. -/
inductive ValueNode where
  | lit (literal : LiteralNode)
  | list (items : List LiteralNode) (span : SourceSpan)
deriving DecidableEq, Repr

/-- Logical connective (`types.ts` `LogicalNode.operator`). -/
inductive LogicalOperator where
  | AND
  | OR
deriving DecidableEq, Repr

/-- The AST (`types.ts` `QueryAstNode`). -/
inductive QueryAstNode where
  | comparison (field : FieldRefNode) (operator : String) (value : ValueNode)
      (span : SourceSpan)
  | logical (operator : LogicalOperator) (left right : QueryAstNode)
      (span : SourceSpan)
  | not (expression : QueryAstNode) (span : SourceSpan)
deriving DecidableEq, Repr

/-- Envelope metadata (`types.ts` `QueryAstEnvelope.metadata`). -/
structure QueryAstMetadata where
  parser : String
  nodeCount : Nat
  maxDepth : Nat
deriving DecidableEq, Repr

/-- The envelope (`types.ts` `QueryAstEnvelope`). -/
structure QueryAstEnvelope where
  astVersion : String
  grammarVersion : String
  rawQuery : String
  root : QueryAstNode
  metadata : Option QueryAstMetadata
deriving DecidableEq, Repr

/-- A concrete syntax tree node, the shape `analysis.ts` consumes from the
external lezer parser: a node type name, a span, an error-node marker and the
ordered children. -/
inductive SNode where
  | mk (name : String) (fromPos : Nat) (toPos : Nat) (isError : Bool)
      (children : List SNode)

/-- The node type name of a syntax node. -/
def SNode.name : SNode → String
  | .mk n _ _ _ _ => n

/-- Start offset of a syntax node. -/
def SNode.fromPos : SNode → Nat
  | .mk _ a _ _ _ => a

/-- End offset of a syntax node. -/
def SNode.toPos : SNode → Nat
  | .mk _ _ b _ _ => b

/-- Whether the node is an error node (`node.type.isError` in lezer). -/
def SNode.isError : SNode → Bool
  | .mk _ _ _ e _ => e

/-- The ordered children of a syntax node. -/
def SNode.children : SNode → List SNode
  | .mk _ _ _ _ cs => cs

/-- lezer `node.getChild(type)`: the first direct child with the given name. -/
def SNode.getChild (node : SNode) (nm : String) : Option SNode :=
  node.children.find? (fun c => c.name = nm)

/-- lezer `node.getChildren(type)`: all direct children with the given name. -/
def SNode.getChildren (node : SNode) (nm : String) : List SNode :=
  node.children.filter (fun c => c.name = nm)

/-- lezer `node.firstChild`. -/
def SNode.firstChild (node : SNode) : Option SNode :=
  node.children.head?

/-- `spanOf` from `analysis.ts`. -/
def spanOf (node : SNode) : SourceSpan :=
  { fromPos := node.fromPos, toPos := node.toPos }

/-- `textOf` from `analysis.ts`: `input.slice(node.from, node.to)`. -/
def textOf (node : SNode) (input : String) : String :=
  (input.take node.toPos).drop node.fromPos

/-- The whitespace characters of the JavaScript `\s` class and `trim()`
(modelled by the common ASCII whitespace plus no-break space). -/
def isJsWhitespace (c : Char) : Bool :=
  c = ' ' || c = '\t' || c = '\n' || c = '\x0d' || c = '\x0b' || c = '\x0c' ||
    c = ' '

/-- JavaScript `String.prototype.trim()`. -/
def jsTrim (s : String) : String :=
  String.mk (((s.toList.dropWhile isJsWhitespace).reverse.dropWhile
    isJsWhitespace).reverse)

/-- Collapse each run of JS whitespace to a single space
(`value.replace(/\s+/g, " ")` from `normalizeSpace`). -/
def collapseWhitespace : List Char → List Char
  | [] => []
  | [c] => [if isJsWhitespace c then ' ' else c]
  | c1 :: c2 :: rest =>
    if isJsWhitespace c1 && isJsWhitespace c2 then
      collapseWhitespace (c2 :: rest)
    else
      (if isJsWhitespace c1 then ' ' else c1) :: collapseWhitespace (c2 :: rest)

/-- `normalizeSpace` from `analysis.ts`. -/
def normalizeSpace (value : String) : String :=
  jsTrim (String.mk (collapseWhitespace value.toList))

/-- One pass of a JavaScript global replace of the two-character pattern
`[a, b]` by the single character `c` (left-to-right, non-overlapping). -/
def replacePair (a b c : Char) : List Char → List Char
  | [] => []
  | [x] => [x]
  | x :: y :: rest =>
    if x = a && y = b then c :: replacePair a b c rest
    else x :: replacePair a b c (y :: rest)

/-- `unquoteString` from `analysis.ts`: strip the surrounding quotes, then
replace every escaped quote, then every escaped backslash. -/
def unquoteString (raw : String) : String :=
  if raw.length < 2 then raw
  else
    String.mk (replacePair '\\' '\\' '\\'
      (replacePair '\\' '"' '"' ((raw.toList.drop 1).dropLast)))

/-- Parse a decimal digit run. -/
def digitsToNat : List Char → Option Nat
  | [] => none
  | cs =>
    if cs.all (fun c => c.isDigit) then
      some (cs.foldl (fun acc c => acc * 10 + (c.toNat - 48)) 0)
    else none

/-- Modelled from the spec: the host JavaScript runtime's `Number(raw)`
conversion used by the AST builder for numeric literals is external to the
repository; it is modelled as decimal-integer parsing (an optional sign and
digits), `none` standing for a non-finite result. -/
def parseJsNumberInt (raw : String) : Option Int :=
  match raw.toList with
  | '-' :: rest => (digitsToNat rest).map (fun n => -(n : Int))
  | other => (digitsToNat other).map (fun n => (n : Int))

/-- The errors the AST builder throws: `AstBuildDiagnosticError` carries a
diagnostic code and span; `internal` is any other thrown `Error`;
`fuelExhausted` is an artifact of the fuel embedding and is proved
unreachable (`buildStable`). -/
inductive BuildError where
  | diag (code : String) (message : String) (span : SourceSpan)
  | internal (message : String)
  | fuelExhausted
deriving DecidableEq, Repr

/-- `AstBuildContext` from `analysis.ts`, plus the external parser oracle the
source reaches through the imported `bqlParser`. -/
structure AstBuildContext where
  languageSpec : QueryLanguageSpec
  macroAliases : List (String × MacroAliasSpec)
  macroStack : List String
  macroDepth : Nat
  parse : String → SNode

/-- `MAX_MACRO_EXPANSION_DEPTH` from `analysis.ts`. -/
def MAX_MACRO_EXPANSION_DEPTH : Nat := 10

/-- `buildMacroAliasIndex` from `analysis.ts`, recursing over
`spec.functions` while rejecting duplicate names. -/
def buildMacroAliasIndexGo (input : String) :
    List MacroAliasSpec → List (String × MacroAliasSpec) →
      Except BuildError (List (String × MacroAliasSpec))
  | [], aliases => .ok aliases
  | fn :: rest, aliases =>
    if (aliases.lookup fn.name).isSome then
      .error (.diag "DUPLICATE_MACRO_ALIAS"
        ("Duplicate macro alias '" ++ fn.name ++ "'")
        { fromPos := 0, toPos := max 1 input.length })
    else buildMacroAliasIndexGo input rest (aliases ++ [(fn.name, fn)])

/-- `buildMacroAliasIndex` from `analysis.ts` (the JS `Map` is an association
list preserving insertion order). -/
def buildMacroAliasIndex (languageSpec : QueryLanguageSpec) (input : String) :
    Except BuildError (List (String × MacroAliasSpec)) :=
  buildMacroAliasIndexGo input (languageSpec.functions.getD []) []

/-- `createAstBuildContext` from `analysis.ts`. -/
def createAstBuildContext (languageSpec : QueryLanguageSpec) (input : String)
    (parse : String → SNode) : Except BuildError AstBuildContext :=
  match buildMacroAliasIndex languageSpec input with
  | .error e => .error e
  | .ok aliases =>
    .ok { languageSpec := languageSpec, macroAliases := aliases,
          macroStack := [], macroDepth := 0, parse := parse }

/-- The diagnostic pushed by `collectSyntaxDiagnostics` for an error node. -/
def syntaxErrorDiagnostic (node : SNode) : QueryDiagnostic :=
  { severity := .error, code := "SYNTAX_ERROR",
    message := "Invalid query syntax", fromPos := node.fromPos,
    toPos := max (node.fromPos + 1) node.toPos, source := "syntax" }

mutual

/-- The `visit` pre-order walk of `collectSyntaxDiagnostics`, collecting a
diagnostic per error node. -/
def collectErrorNodes : SNode → List QueryDiagnostic
  | .mk nm a b err cs =>
    (if err then [syntaxErrorDiagnostic (.mk nm a b err cs)] else []) ++
      collectErrorNodesList cs

/-- `collectErrorNodes` over a list of children, in order. -/
def collectErrorNodesList : List SNode → List QueryDiagnostic
  | [] => []
  | c :: cs => collectErrorNodes c ++ collectErrorNodesList cs

end

/-- The sort order of `mergeOverlappingDiagnostics`'s comparator
(`a.from - b.from || a.to - b.to`). -/
def diagnosticLe (a b : QueryDiagnostic) : Bool :=
  a.fromPos < b.fromPos || (a.fromPos = b.fromPos && a.toPos ≤ b.toPos)

/-- Stable insertion of a diagnostic after all entries ordered at or before
it (JavaScript `Array.prototype.sort` is stable). -/
def insertDiagnostic (d : QueryDiagnostic) :
    List QueryDiagnostic → List QueryDiagnostic
  | [] => [d]
  | x :: xs =>
    if diagnosticLe x d then x :: insertDiagnostic d xs else d :: x :: xs

/-- The stable sort in `mergeOverlappingDiagnostics`. -/
def sortDiagnostics (diagnostics : List QueryDiagnostic) :
    List QueryDiagnostic :=
  diagnostics.foldl (fun sorted d => insertDiagnostic d sorted) []

/-- The merging loop of `mergeOverlappingDiagnostics`: `last` is the entry
most recently pushed onto `merged`. -/
def mergeAdjacentDiagnostics :
    QueryDiagnostic → List QueryDiagnostic → List QueryDiagnostic
  | last, [] => [last]
  | last, d :: rest =>
    if d.fromPos ≤ last.toPos then
      mergeAdjacentDiagnostics { last with toPos := max last.toPos d.toPos }
        rest
    else last :: mergeAdjacentDiagnostics d rest

/-- `mergeOverlappingDiagnostics` from `analysis.ts`. -/
def mergeOverlappingDiagnostics (diagnostics : List QueryDiagnostic) :
    List QueryDiagnostic :=
  match sortDiagnostics diagnostics with
  | [] => []
  | d :: rest => mergeAdjacentDiagnostics d rest

/-- `collectSyntaxDiagnostics` from `analysis.ts`. -/
def collectSyntaxDiagnostics (node : SNode) (input : String) :
    List QueryDiagnostic :=
  let diagnostics := collectErrorNodes node
  let diagnostics :=
    if node.toPos < input.length then
      diagnostics ++
        [{ severity := .error, code := "UNPARSED_TRAILING_INPUT",
           message := "Trailing input could not be parsed",
           fromPos := node.toPos, toPos := input.length, source := "syntax" }]
    else diagnostics
  mergeOverlappingDiagnostics diagnostics

/-- `expectChild` from `analysis.ts` (every call site passes a single-name
list). -/
def expectChild (node : SNode) (nm : String) : Except BuildError SNode :=
  match node.getChild nm with
  | some child => .ok child
  | none =>
    .error (.internal ("Expected child [" ++ nm ++ "] under " ++ node.name))

/-- The `throw new Error` at the bottom of `buildExpression`. -/
def unsupportedNodeError (node : SNode) : BuildError :=
  .internal ("Unsupported node while building AST: " ++ node.name)

/-- `buildScalarValue` from `analysis.ts`. -/
def buildScalarValue (node : SNode) (input : String) :
    Except BuildError LiteralNode :=
  match node.firstChild with
  | none => .error (.internal "ScalarValue missing child")
  | some child =>
    match child.name with
    | "String" =>
      .ok (.stringLiteral (unquoteString (textOf child input)) (spanOf child))
    | "Number" =>
      match parseJsNumberInt (textOf child input) with
      | some parsed => .ok (.numberLiteral parsed (textOf child input)
          (spanOf child))
      | none =>
        .error (.internal ("Invalid numeric literal: " ++ textOf child input))
    | "Boolean" =>
      .ok (.booleanLiteral (textOf child input = "true") (spanOf child))
    | _ => .error (.internal ("Unsupported scalar child: " ++ child.name))

/-- `buildListValue` from `analysis.ts`. -/
def buildListValue (node : SNode) (input : String) :
    Except BuildError ValueNode :=
  match (node.getChildren "ListItem").mapM
      (fun item => do
        let scalar ← expectChild item "ScalarValue"
        buildScalarValue scalar input) with
  | .ok items => .ok (.list items (spanOf node))
  | .error e => .error e

/-- `foldLogical` from `analysis.ts`: fold the clause terms into `Logical`
pairs, each carrying the span of the whole clause list. -/
def foldLogical (node : SNode) (terms : List QueryAstNode)
    (operator : LogicalOperator) : Except BuildError QueryAstNode :=
  match terms with
  | [] =>
    .error (.internal ("Missing terms for " ++
      (match operator with | .AND => "AND" | .OR => "OR")))
  | t :: rest =>
    .ok (rest.foldl
      (fun current next => .logical operator current next (spanOf node)) t)

/-- The error thrown for a non-boolean bare field reference. -/
def shorthandError (fieldName : String) (fieldNode : SNode) : BuildError :=
  .diag "INVALID_BOOLEAN_FIELD_SHORTHAND"
    ("Boolean shorthand is only supported for boolean fields (got '" ++
      fieldName ++ "')")
    (spanOf fieldNode)

/-- The `Comparison` case of `buildExpression` from `analysis.ts`
(non-recursive, so defined outside the fuel-indexed mutual block). -/
def buildComparison (node : SNode) (input : String)
    (context : AstBuildContext) : Except BuildError QueryAstNode := do
  let fieldNode ← expectChild node "Field"
  let idNode ← expectChild fieldNode "Identifier"
  let fieldName := textOf idNode input
  let fieldRef : FieldRefNode := { name := fieldName, span := spanOf fieldNode }
  match node.getChild "CompareOperator" with
  | some compareOperator => do
    let scalar ← expectChild node "ScalarValue"
    let value ← buildScalarValue scalar input
    .ok (.comparison fieldRef (jsTrim (textOf compareOperator input))
      (.lit value) (spanOf node))
  | none =>
    match node.getChild "InOperator" with
    | some inOperator => do
      let listLiteral ← expectChild node "ListLiteral"
      let value ← buildListValue listLiteral input
      .ok (.comparison fieldRef (normalizeSpace (textOf inOperator input))
        value (spanOf node))
    | none =>
      match context.languageSpec.fields.find?
          (fun field => field.name = fieldName) with
      | some fieldSpec =>
        if fieldSpec.type = .boolean then
          .ok (.comparison fieldRef "="
            (.lit (.booleanLiteral true (spanOf fieldNode))) (spanOf node))
        else .error (shorthandError fieldName fieldNode)
      | none => .error (shorthandError fieldName fieldNode)

/-- `remapValueSpans` from `analysis.ts`. -/
def remapValueSpans (value : ValueNode) (span : SourceSpan) : ValueNode :=
  match value with
  | .list items _ =>
    .list (items.map (fun item =>
      match item with
      | .stringLiteral v _ => .stringLiteral v span
      | .booleanLiteral v _ => .booleanLiteral v span
      | .numberLiteral v raw _ => .numberLiteral v raw span)) span
  | .lit (.stringLiteral v _) => .lit (.stringLiteral v span)
  | .lit (.booleanLiteral v _) => .lit (.booleanLiteral v span)
  | .lit (.numberLiteral v raw _) => .lit (.numberLiteral v raw span)

/-- `remapQueryAstSpans` from `analysis.ts`. -/
def remapQueryAstSpans (node : QueryAstNode) (span : SourceSpan) :
    QueryAstNode :=
  match node with
  | .comparison field operator value _ =>
    .comparison { field with span := span } operator
      (remapValueSpans value span) span
  | .logical operator left right _ =>
    .logical operator (remapQueryAstSpans left span)
      (remapQueryAstSpans right span) span
  | .not expression _ => .not (remapQueryAstSpans expression span) span

/-- The guard section of `expandMacroAlias` from `analysis.ts`: alias lookup,
cycle check, depth ceiling and re-parse check, in source order. -/
def macroAliasGuards (node : SNode) (input : String)
    (context : AstBuildContext) :
    Except BuildError (String × MacroAliasSpec × SNode) := do
  let identifier ← expectChild node "Identifier"
  let name := textOf identifier input
  match context.macroAliases.lookup name with
  | none =>
    .error (.diag "UNKNOWN_MACRO_ALIAS"
      ("Unknown macro alias '" ++ name ++ "'") (spanOf node))
  | some aliasSpec =>
    if context.macroStack.contains name then
      .error (.diag "MACRO_EXPANSION_CYCLE"
        ("Macro alias cycle detected: " ++
          String.intercalate " -> " (context.macroStack ++ [name]))
        (spanOf node))
    else if MAX_MACRO_EXPANSION_DEPTH ≤ context.macroDepth then
      .error (.diag "MACRO_EXPANSION_DEPTH_EXCEEDED"
        ("Macro alias expansion depth exceeded (" ++
          toString MAX_MACRO_EXPANSION_DEPTH ++ ")")
        (spanOf node))
    else
      let expansionTree := context.parse aliasSpec.expansion
      if (collectSyntaxDiagnostics expansionTree aliasSpec.expansion).length > 0
      then
        .error (.diag "INVALID_MACRO_EXPANSION"
          ("Invalid macro expansion for '" ++ name ++ "'") (spanOf node))
      else .ok (name, aliasSpec, expansionTree)

mutual

/-- `buildAstFromQuery` from `analysis.ts`, parameterized by the macro
expansion continuation `expand` (the `MacroCall` case of `buildExpression`):
`queryNode.getChild("Expression") ?? queryNode.firstChild`, then build. -/
def buildAstFromQueryL (expand : SNode → Except BuildError QueryAstNode)
    (input : String) (context : AstBuildContext) :
    SNode → Except BuildError QueryAstNode
  | .mk nm a b err cs =>
    if ((SNode.mk nm a b err cs).getChild "Expression").isSome then
      buildChildNamed expand input context "Expression" nm cs
    else
      match cs with
      | [] => .error (.internal "Missing Expression node")
      | first :: _ => buildExpressionL expand input context first

/-- `buildExpression` from `analysis.ts` (the `switch` over the node name),
parameterized by the macro expansion continuation. -/
def buildExpressionL (expand : SNode → Except BuildError QueryAstNode)
    (input : String) (context : AstBuildContext) :
    SNode → Except BuildError QueryAstNode
  | .mk nm a b err cs =>
    match nm with
    | "Expression" => buildChildNamed expand input context "OrExpression" nm cs
    | "OrExpression" =>
      match buildChildrenNamed expand input context "AndExpression" cs with
      | .ok terms => foldLogical (.mk nm a b err cs) terms .OR
      | .error e => .error e
    | "AndExpression" =>
      match buildChildrenNamed expand input context "NotExpression" cs with
      | .ok terms => foldLogical (.mk nm a b err cs) terms .AND
      | .error e => .error e
    | "NotExpression" =>
      if ((SNode.mk nm a b err cs).getChild "NotOp").isSome then
        match buildChildNamed expand input context "Primary" nm cs with
        | .ok inner => .ok (.not inner (spanOf (.mk nm a b err cs)))
        | .error e => .error e
      else buildChildNamed expand input context "Primary" nm cs
    | "Primary" =>
      if ((SNode.mk nm a b err cs).getChild "Comparison").isSome then
        buildChildNamed expand input context "Comparison" nm cs
      else if ((SNode.mk nm a b err cs).getChild "MacroCall").isSome then
        buildChildNamed expand input context "MacroCall" nm cs
      else buildGroupChild expand input context cs
    | "MacroCall" => expand (.mk nm a b err cs)
    | "Comparison" => buildComparison (.mk nm a b err cs) input context
    | _ => .error (unsupportedNodeError (.mk nm a b err cs))

/-- `buildExpression(expectChild(node, [target]))`: walk the children to the
first one named `target` and build it (fused so the recursion is structural;
`buildChildNamed_eq_find` relates it to `getChild`). -/
def buildChildNamed (expand : SNode → Except BuildError QueryAstNode)
    (input : String) (context : AstBuildContext)
    (target parentName : String) : List SNode → Except BuildError QueryAstNode
  | [] =>
    .error (.internal ("Expected child [" ++ target ++ "] under " ++
      parentName))
  | c :: rest =>
    if c.name = target then buildExpressionL expand input context c
    else buildChildNamed expand input context target parentName rest

/-- `node.getChildren(target).map(child => buildExpression(child, ...))` of
the `OrExpression`/`AndExpression` cases (fused so the recursion is
structural; `buildChildrenNamed_eq_filter` relates it to `getChildren`). -/
def buildChildrenNamed (expand : SNode → Except BuildError QueryAstNode)
    (input : String) (context : AstBuildContext) (target : String) :
    List SNode → Except BuildError (List QueryAstNode)
  | [] => .ok []
  | c :: rest =>
    if c.name = target then
      match buildExpressionL expand input context c with
      | .ok first =>
        match buildChildrenNamed expand input context target rest with
        | .ok others => .ok (first :: others)
        | .error e => .error e
      | .error e => .error e
    else buildChildrenNamed expand input context target rest

/-- The `Group` fallthrough of the `Primary` case: find the `Group` child and
build its `Expression` child, else the `Primary` falls through to the
`Unsupported node` throw at the bottom of `buildExpression`. -/
def buildGroupChild (expand : SNode → Except BuildError QueryAstNode)
    (input : String) (context : AstBuildContext) :
    List SNode → Except BuildError QueryAstNode
  | [] => .error (.internal "Unsupported node while building AST: Primary")
  | (SNode.mk gnm _ _ _ gcs) :: rest =>
    if gnm = "Group" then
      buildChildNamed expand input context "Expression" gnm gcs
    else buildGroupChild expand input context rest

end

/-- `expandMacroAlias` from `analysis.ts`.  The recursion re-enters the AST
builder on a freshly parsed tree, so it is indexed by a fuel that strictly
bounds the macro depth; `expandStable` proves any fuel at least
`macroFuel context` computes the same, fuel-marker-free result. -/
def expandMacroAliasF :
    Nat → SNode → String → AstBuildContext → Except BuildError QueryAstNode
  | 0, _, _, _ => .error .fuelExhausted
  | fuel + 1, node, input, context =>
    match macroAliasGuards node input context with
    | .error e => .error e
    | .ok (name, aliasSpec, expansionTree) =>
      match
        buildAstFromQueryL
          (fun n => expandMacroAliasF fuel n aliasSpec.expansion
            { context with macroStack := context.macroStack ++ [name],
                           macroDepth := context.macroDepth + 1 })
          aliasSpec.expansion
          { context with macroStack := context.macroStack ++ [name],
                         macroDepth := context.macroDepth + 1 }
          expansionTree with
      | .ok expanded => .ok (remapQueryAstSpans expanded (spanOf node))
      | .error e => .error e

/-- The fuel the API entry points supply: the depth guard errors out at
`MAX_MACRO_EXPANSION_DEPTH`, so this never runs out (`expandStable`). -/
def macroFuel (context : AstBuildContext) : Nat :=
  MAX_MACRO_EXPANSION_DEPTH + 2 - context.macroDepth

/-- `expandMacroAlias` from `analysis.ts` (fuel instantiated). -/
def expandMacroAlias (node : SNode) (input : String)
    (context : AstBuildContext) : Except BuildError QueryAstNode :=
  expandMacroAliasF (macroFuel context) node input context

/-- `buildExpression` from `analysis.ts` (macro continuation instantiated). -/
def buildExpression (node : SNode) (input : String)
    (context : AstBuildContext) : Except BuildError QueryAstNode :=
  buildExpressionL (fun n => expandMacroAliasF (macroFuel context) n input
    context) input context node

/-- `buildAstFromQuery` from `analysis.ts` (macro continuation
instantiated). -/
def buildAstFromQuery (queryNode : SNode) (input : String)
    (context : AstBuildContext) : Except BuildError QueryAstNode :=
  buildAstFromQueryL (fun n => expandMacroAliasF (macroFuel context) n input
    context) input context queryNode

/-- The `walk` of `computeAstStats` over a value node: subtree node count and
maximum reached depth, starting at the given depth. -/
def computeAstStatsValue : ValueNode → Nat → Nat × Nat
  | .lit _, depth => (1, depth)
  | .list items _, depth =>
    (1 + items.length, if items.isEmpty then depth else depth + 1)

/-- The `walk` of `computeAstStats` over an AST node. -/
def computeAstStatsNode : QueryAstNode → Nat → Nat × Nat
  | .comparison _ _ value _, depth =>
    let s := computeAstStatsValue value (depth + 1)
    (1 + s.1, max depth s.2)
  | .logical _ left right _, depth =>
    let l := computeAstStatsNode left (depth + 1)
    let r := computeAstStatsNode right (depth + 1)
    (1 + l.1 + r.1, max depth (max l.2 r.2))
  | .not expression _, depth =>
    let s := computeAstStatsNode expression (depth + 1)
    (1 + s.1, max depth s.2)

/-- `computeAstStats` from `analysis.ts` (depth is 1-indexed). -/
def computeAstStats (root : QueryAstNode) : Nat × Nat :=
  computeAstStatsNode root 1

/-- `AnalyzeQueryOptions` from `analysis.ts`. -/
structure AnalyzeQueryOptions where
  astVersion : String
  grammarVersion : String
  languageSpec : QueryLanguageSpec

/-- `QueryAnalysis` from `analysis.ts`. -/
structure QueryAnalysis where
  syntaxDiagnostics : List QueryDiagnostic
  ast : Option QueryAstEnvelope
deriving DecidableEq, Repr

/-- The `catch` branch of `analyzeQuery`: an `AstBuildDiagnosticError`
becomes its own diagnostic, any other error becomes `AST_BUILD_FAILED`
spanning the whole input. -/
def analyzeFailure (e : BuildError) (input : String) : QueryAnalysis :=
  match e with
  | .diag code message span =>
    { syntaxDiagnostics :=
        [{ severity := .error, code := code, message := message,
           fromPos := span.fromPos, toPos := span.toPos, source := "syntax" }],
      ast := none }
  | .internal message =>
    { syntaxDiagnostics :=
        [{ severity := .error, code := "AST_BUILD_FAILED", message := message,
           fromPos := 0, toPos := max 1 input.length, source := "syntax" }],
      ast := none }
  | .fuelExhausted =>
    { syntaxDiagnostics :=
        [{ severity := .error, code := "AST_BUILD_FAILED",
           message := "Macro expansion fuel exhausted (unreachable)",
           fromPos := 0, toPos := max 1 input.length, source := "syntax" }],
      ast := none }

/-- `analyzeQuery` from `analysis.ts`; `parse` is the external `bqlParser`. -/
def analyzeQuery (parse : String → SNode) (input : String)
    (options : AnalyzeQueryOptions) : QueryAnalysis :=
  let tree := parse input
  let syntaxDiagnostics := collectSyntaxDiagnostics tree input
  if syntaxDiagnostics.length > 0 then
    { syntaxDiagnostics := syntaxDiagnostics, ast := none }
  else
    match createAstBuildContext options.languageSpec input parse with
    | .error e => analyzeFailure e input
    | .ok buildContext =>
      match buildAstFromQuery tree input buildContext with
      | .error e => analyzeFailure e input
      | .ok root =>
        let stats := computeAstStats root
        { syntaxDiagnostics := [],
          ast := some
            { astVersion := options.astVersion,
              grammarVersion := options.grammarVersion,
              rawQuery := input, root := root,
              metadata := some
                { parser := "lezer", nodeCount := stats.1,
                  maxDepth := stats.2 } } }

end Frontend

namespace Backend

/-- Diagnostic severity (`Contracts.kt` `DiagnosticSeverity`). -/
inductive DiagnosticSeverity where
  | ERROR
  | WARNING
  | INFO
deriving DecidableEq, Repr

/-- A diagnostic (`Contracts.kt` `QueryDiagnostic`); `from`/`to` are renamed
`fromPos`/`toPos` because `from` is a Lean keyword. -/
structure QueryDiagnostic where
  severity : DiagnosticSeverity
  code : String
  message : String
  fromPos : Int
  toPos : Int
  source : String
deriving DecidableEq, Repr

/-- A span (`QueryAstContracts.kt` `SourceSpan`; Kotlin `Int` offsets). -/
structure SourceSpan where
  fromPos : Int
  toPos : Int
deriving DecidableEq, Repr

/-- `QuerySource`. -/
structure QuerySource where
  rawQuery : String
deriving DecidableEq, Repr

/-- `QueryAstMetadata`. -/
structure QueryAstMetadata where
  parser : String
  nodeCount : Int
  maxDepth : Int
deriving DecidableEq, Repr

/-- `FieldRefNode`; `kind` is a plain property with default `"fieldRef"`. -/
structure FieldRefNode where
  kind : String := "fieldRef"
  name : String
  span : Option SourceSpan := none
deriving DecidableEq, Repr

/-- `LogicalOperator`. -/
inductive LogicalOperator where
  | AND
  | OR
deriving DecidableEq, Repr

/-- `QueryValueNode` and its four variants (`stringLiteral`, `numberLiteral`,
`booleanLiteral`, `list`); the Kotlin `Double` payload is modelled as `Int`. -/
inductive QueryValueNode where
  | stringLiteral (value : String) (span : Option SourceSpan)
  | numberLiteral (value : Int) (raw : String) (span : Option SourceSpan)
  | booleanLiteral (value : Bool) (span : Option SourceSpan)
  | list (items : List QueryValueNode) (span : Option SourceSpan)

/-- `QueryAstNode` and its three variants. -/
inductive QueryAstNode where
  | comparison (field : FieldRefNode) (operator : String)
      (value : QueryValueNode) (span : Option SourceSpan)
  | logical (operator : LogicalOperator) (left right : QueryAstNode)
      (span : Option SourceSpan)
  | not (expression : QueryAstNode) (span : Option SourceSpan)

/-- `QueryAstEnvelope`. -/
structure QueryAstEnvelope where
  astVersion : String
  grammarVersion : String
  source : QuerySource
  root : QueryAstNode
  metadata : Option QueryAstMetadata := none

/-- `FieldType`. -/
inductive FieldType where
  | STRING
  | NUMBER
  | BOOLEAN
deriving DecidableEq, Repr

/-- `FieldSpec`. -/
structure FieldSpec where
  name : String
  type : FieldType
  operators : Option (List String) := none
  enumValues : Option (List String) := none
  completionProviderKey : Option String := none
deriving DecidableEq, Repr

/-- `FunctionSpec`. -/
structure FunctionSpec where
  name : String
deriving DecidableEq, Repr

/-- `QueryLanguageSpec` (the Kotlin maps are association lists). -/
structure QueryLanguageSpec where
  version : String
  fields : List FieldSpec
  operatorsByType : List (FieldType × List String)
  functions : List FunctionSpec := []
  completionPolicies : List (String × String) := []
deriving DecidableEq, Repr

/-- `QueryIrValue` and its variants. -/
inductive QueryIrValue where
  | irString (value : String)
  | irNumber (value : Int)
  | irBoolean (value : Bool)
  | irList (items : List QueryIrValue)

/-- `QueryIrNode` and its variants. -/
inductive QueryIrNode where
  | irLogical (operator : LogicalOperator) (left right : QueryIrNode)
  | irNot (expression : QueryIrNode)
  | irComparison (field : String) (operator : String) (value : QueryIrValue)

/-- `AstEnvelopeValidationResult` from `Contracts.kt`. -/
structure AstEnvelopeValidationResult where
  valid : Bool
  envelope : Option QueryAstEnvelope
  diagnostics : List QueryDiagnostic

/-- `ValidationResult` from `Contracts.kt`. -/
structure ValidationResult where
  valid : Bool
  diagnostics : List QueryDiagnostic

/-- `CompileResult` from `Contracts.kt`. -/
structure CompileResult where
  success : Bool
  diagnostics : List QueryDiagnostic
  ir : Option QueryIrNode

/-- The span of a value node (the abstract `span` property of
`QueryValueNode`). -/
def QueryValueNode.span : QueryValueNode → Option SourceSpan
  | .stringLiteral _ s => s
  | .numberLiteral _ _ s => s
  | .booleanLiteral _ s => s
  | .list _ s => s

/-- The span of an AST node (the abstract `span` property of
`QueryAstNode`). -/
def QueryAstNode.span : QueryAstNode → Option SourceSpan
  | .comparison _ _ _ s => s
  | .logical _ _ _ s => s
  | .not _ s => s

/-- Kotlin `String.isBlank()` (modelled with the ASCII whitespace class). -/
def isBlank (s : String) : Bool :=
  s.toList.all (fun c => c = ' ' || c = '\t' || c = '\n' || c = '\x0d')

/-- Whether a diagnostic list has an ERROR entry (the negation of the
`none { it.severity == DiagnosticSeverity.ERROR }` checks). -/
def hasError (diagnostics : List QueryDiagnostic) : Bool :=
  diagnostics.any (fun d => d.severity == DiagnosticSeverity.ERROR)

/-- `spec.fields.associateBy(FieldSpec::name)` followed by map lookup: a
Kotlin map built with `associateBy` keeps the last entry per name. -/
def fieldsByName (spec : QueryLanguageSpec) (nm : String) : Option FieldSpec :=
  spec.fields.reverse.find? (fun f => f.name = nm)

/-- `ComparisonNode.error` from `SemanticValidator.kt` (the receiver is
unused in the source). -/
def comparisonError (code message : String) (fromPos toPos : Option Int) :
    QueryDiagnostic :=
  { severity := .ERROR, code := code, message := message,
    fromPos := fromPos.getD 0, toPos := toPos.getD (fromPos.getD 0 + 1),
    source := "semantic" }

/-- `errorForValue` from `SemanticValidator.kt`. -/
def errorForValue (value : QueryValueNode) (code message : String) :
    QueryDiagnostic :=
  { severity := .ERROR, code := code, message := message,
    fromPos := (value.span.map SourceSpan.fromPos).getD 0,
    toPos := (value.span.map SourceSpan.toPos).getD
      ((value.span.map SourceSpan.fromPos).getD 0 + 1),
    source := "semantic" }

/-- `validateScalarValue` from `SemanticValidator.kt`. -/
def validateScalarValue (value : QueryValueNode) (field : FieldSpec) :
    List QueryDiagnostic :=
  (match field.type, value with
   | .STRING, .stringLiteral _ _ => []
   | .STRING, _ =>
     [errorForValue value "TYPE_MISMATCH"
       ("Field '" ++ field.name ++ "' expects a string")]
   | .NUMBER, .numberLiteral _ _ _ => []
   | .NUMBER, _ =>
     [errorForValue value "TYPE_MISMATCH"
       ("Field '" ++ field.name ++ "' expects a number")]
   | .BOOLEAN, .booleanLiteral _ _ => []
   | .BOOLEAN, _ =>
     [errorForValue value "TYPE_MISMATCH"
       ("Field '" ++ field.name ++ "' expects a boolean")]) ++
  (match field.enumValues, value with
   | some enumValues, .stringLiteral v _ =>
     if v ∈ enumValues then []
     else
       [errorForValue value "INVALID_ENUM_VALUE"
         ("Value '" ++ v ++ "' is not allowed for field '" ++ field.name ++
           "'")]
   | _, _ => [])

/-- `validateValueForField` from `SemanticValidator.kt`: the operator-family
checks for list and scalar values, then per-scalar checks. -/
def validateValueForField (operator : String) (value : QueryValueNode)
    (field : FieldSpec) : List QueryDiagnostic :=
  match value with
  | .list items span =>
    (if operator ≠ "IN" ∧ operator ≠ "NOT IN" then
      [comparisonError "LIST_OPERATOR_MISMATCH"
        "List values require IN or NOT IN"
        (span.map SourceSpan.fromPos) (span.map SourceSpan.toPos)]
    else []) ++
    (if items.isEmpty then
      [comparisonError "EMPTY_LIST" "IN list must contain at least one value"
        (span.map SourceSpan.fromPos) (span.map SourceSpan.toPos)]
    else []) ++
    (items.map (fun item => validateScalarValue item field)).flatten
  | _ =>
    (if operator = "IN" ∨ operator = "NOT IN" then
      [comparisonError "SCALAR_OPERATOR_MISMATCH"
        "IN and NOT IN require a list value"
        (value.span.map SourceSpan.fromPos) (value.span.map SourceSpan.toPos)]
    else []) ++
    validateScalarValue value field

/-- `validateComparison` from `SemanticValidator.kt`. -/
def validateComparison (field : FieldRefNode) (operator : String)
    (value : QueryValueNode) (span : Option SourceSpan)
    (spec : QueryLanguageSpec) : List QueryDiagnostic :=
  match fieldsByName spec field.name with
  | none =>
    [comparisonError "UNKNOWN_FIELD" ("Unknown field '" ++ field.name ++ "'")
      (field.span.map SourceSpan.fromPos) (field.span.map SourceSpan.toPos)]
  | some fieldSpec =>
    (if (fieldSpec.operators.getD
          ((spec.operatorsByType.lookup fieldSpec.type).getD [])).all
        (fun op => ¬op = operator) then
      [comparisonError "UNSUPPORTED_OPERATOR"
        ("Operator '" ++ operator ++ "' is not allowed for field '" ++
          fieldSpec.name ++ "'")
        (span.map SourceSpan.fromPos) (span.map SourceSpan.toPos)]
    else []) ++
    validateValueForField operator value fieldSpec

/-- `validateNode` from `SemanticValidator.kt`. -/
def validateNode (spec : QueryLanguageSpec) :
    QueryAstNode → List QueryDiagnostic
  | .comparison field operator value span =>
    validateComparison field operator value span spec
  | .logical _ left right _ => validateNode spec left ++ validateNode spec right
  | .not expression _ => validateNode spec expression

/-- `SemanticValidator.validate`. -/
def SemanticValidator.validate (ast : QueryAstEnvelope)
    (spec : QueryLanguageSpec) : ValidationResult :=
  let diagnostics := validateNode spec ast.root
  { valid := !hasError diagnostics, diagnostics := diagnostics }

/-- The constructor parameters of `DefaultQueryAstEngine`, with their default
values. -/
structure EngineConfig where
  supportedAstVersions : List String := ["1"]
  maxNodeCount : Nat := 1000
  maxDepth : Nat := 128
  maxStringLiteralLength : Nat := 4096
  maxRawQueryLength : Nat := 20000

/-- The `diagnostic` helpers of `DefaultQueryAstEngine` and
`AstStructureWalker` (severity ERROR, span 0..1, source "ast"). -/
def structureDiagnostic (code message : String) : QueryDiagnostic :=
  { severity := .ERROR, code := code, message := message, fromPos := 0,
    toPos := 1, source := "ast" }

/-- `AstStructureWalker.validateSpan`. -/
def validateSpan (span : Option SourceSpan) (rawLength : Nat) :
    List QueryDiagnostic :=
  match span with
  | none => []
  | some s =>
    if s.fromPos < 0 ∨ s.toPos < s.fromPos ∨ (rawLength : Int) < s.toPos then
      [structureDiagnostic "INVALID_SPAN"
        ("Invalid source span (" ++ toString s.fromPos ++ ", " ++
          toString s.toPos ++ ")")]
    else []

/-- `AstStructureWalker.validateDepth`. -/
def validateDepth (depth maxDepth : Nat) : List QueryDiagnostic :=
  if depth > maxDepth then
    [structureDiagnostic "AST_TOO_DEEP"
      ("AST depth exceeds " ++ toString maxDepth)]
  else []

mutual

/-- `AstStructureWalker.walkValue`: the node-count contribution and the
diagnostics of a value subtree, in traversal order. -/
def walkValue (cfg : EngineConfig) (rawLength : Nat) :
    QueryValueNode → Nat → Nat × List QueryDiagnostic
  | .list items span, depth =>
    let inner := walkValueList cfg rawLength items (depth + 1)
    (1 + inner.1,
      validateDepth depth cfg.maxDepth ++ validateSpan span rawLength ++
        inner.2)
  | .stringLiteral v span, depth =>
    (1,
      validateDepth depth cfg.maxDepth ++ validateSpan span rawLength ++
        (if v.length > cfg.maxStringLiteralLength then
          [structureDiagnostic "STRING_LITERAL_TOO_LARGE"
            ("String literal exceeds " ++
              toString cfg.maxStringLiteralLength ++ " characters")]
        else []))
  | .numberLiteral _ _ span, depth =>
    (1, validateDepth depth cfg.maxDepth ++ validateSpan span rawLength)
  | .booleanLiteral _ span, depth =>
    (1, validateDepth depth cfg.maxDepth ++ validateSpan span rawLength)

/-- `walkValue` over the items of a list value, in order. -/
def walkValueList (cfg : EngineConfig) (rawLength : Nat) :
    List QueryValueNode → Nat → Nat × List QueryDiagnostic
  | [], _ => (0, [])
  | v :: rest, depth =>
    let h := walkValue cfg rawLength v depth
    let t := walkValueList cfg rawLength rest depth
    (h.1 + t.1, h.2 ++ t.2)

end

/-- `AstStructureWalker.walkNode`. -/
def walkNode (cfg : EngineConfig) (rawLength : Nat) :
    QueryAstNode → Nat → Nat × List QueryDiagnostic
  | .comparison field operator value span, depth =>
    let v := walkValue cfg rawLength value (depth + 1)
    (1 + v.1,
      validateDepth depth cfg.maxDepth ++ validateSpan span rawLength ++
        validateSpan field.span rawLength ++
        (if isBlank operator then
          [structureDiagnostic "EMPTY_OPERATOR"
            "Comparison operator is required"]
        else []) ++ v.2)
  | .logical _ left right span, depth =>
    let l := walkNode cfg rawLength left (depth + 1)
    let r := walkNode cfg rawLength right (depth + 1)
    (1 + l.1 + r.1,
      validateDepth depth cfg.maxDepth ++ validateSpan span rawLength ++
        l.2 ++ r.2)
  | .not expression span, depth =>
    let e := walkNode cfg rawLength expression (depth + 1)
    (1 + e.1,
      validateDepth depth cfg.maxDepth ++ validateSpan span rawLength ++ e.2)

/-- `AstStructureWalker.validate`: walk from depth 1, then the node-count
ceiling check. -/
def walkerValidate (cfg : EngineConfig) (root : QueryAstNode)
    (rawLength : Nat) : List QueryDiagnostic :=
  let w := walkNode cfg rawLength root 1
  w.2 ++
    (if w.1 > cfg.maxNodeCount then
      [structureDiagnostic "AST_TOO_LARGE"
        ("AST node count exceeds " ++ toString cfg.maxNodeCount)]
    else [])

/-- `DefaultQueryAstEngine.validateStructure`: every check runs and its
diagnostics are appended, in source order. -/
def validateStructure (cfg : EngineConfig) (envelope : QueryAstEnvelope) :
    List QueryDiagnostic :=
  (if envelope.astVersion ∈ cfg.supportedAstVersions then []
   else
    [structureDiagnostic "UNSUPPORTED_AST_VERSION"
      ("Unsupported astVersion '" ++ envelope.astVersion ++ "'")]) ++
  (if isBlank envelope.grammarVersion then
    [structureDiagnostic "MISSING_GRAMMAR_VERSION" "grammarVersion is required"]
  else []) ++
  (if envelope.source.rawQuery.length > cfg.maxRawQueryLength then
    [structureDiagnostic "RAW_QUERY_TOO_LARGE"
      ("rawQuery exceeds " ++ toString cfg.maxRawQueryLength ++ " characters")]
  else []) ++
  walkerValidate cfg envelope.root envelope.source.rawQuery.length ++
  (match envelope.metadata with
   | none => []
   | some metadata =>
     (if metadata.parser ≠ "lezer" then
       [structureDiagnostic "UNSUPPORTED_PARSER_METADATA"
         "metadata.parser must be 'lezer' in v1"]
     else []) ++
     (if metadata.nodeCount ≤ 0 ∨ metadata.maxDepth ≤ 0 then
       [structureDiagnostic "INVALID_METADATA"
         "metadata.nodeCount and metadata.maxDepth must be positive"]
     else []))

mutual

/-- `IrCompiler.compileValue`. -/
def compileValue : QueryValueNode → QueryIrValue
  | .stringLiteral v _ => .irString v
  | .numberLiteral v _ _ => .irNumber v
  | .booleanLiteral v _ => .irBoolean v
  | .list items _ => .irList (compileValueList items)

/-- `compileValue` over a list's items. -/
def compileValueList : List QueryValueNode → List QueryIrValue
  | [] => []
  | v :: rest => compileValue v :: compileValueList rest

end

/-- `IrCompiler.compile`. -/
def IrCompiler.compile : QueryAstNode → QueryIrNode
  | .comparison field operator value _ =>
    .irComparison field.name operator (compileValue value)
  | .logical operator left right _ =>
    .irLogical operator (IrCompiler.compile left) (IrCompiler.compile right)
  | .not expression _ => .irNot (IrCompiler.compile expression)

/-- `DefaultQueryAstEngine.compile`: re-validate structure, then semantics,
then lower. -/
def compile (cfg : EngineConfig) (ast : QueryAstEnvelope)
    (spec : QueryLanguageSpec) : CompileResult :=
  let structureDiagnostics := validateStructure cfg ast
  if hasError structureDiagnostics then
    { success := false, diagnostics := structureDiagnostics, ir := none }
  else
    let semantics := SemanticValidator.validate ast spec
    if !semantics.valid then
      { success := false, diagnostics := semantics.diagnostics, ir := none }
    else
      { success := true, diagnostics := [],
        ir := some (IrCompiler.compile ast.root) }

end Backend

namespace Backend

/-- A JSON value.  Modelled from the spec: the textual JSON syntax and the
kotlinx.serialization runtime are external to the repository; the wire
envelope is modelled at the level of JSON values, following the
`@Serializable`/`@SerialName` declarations of `QueryAstContracts.kt` and the
spec's wire-format section (discriminator field `kind`). -/
inductive Json where
  | str (s : String)
  | num (n : Int)
  | bool (b : Bool)
  | null
  | arr (items : List Json)
  | obj (fields : List (String × Json))

/-- Field lookup in a JSON object (first match). -/
def jfield (fields : List (String × Json)) (key : String) : Option Json :=
  fields.lookup key

/-- Encode a span. -/
def encodeSpan (s : SourceSpan) : Json :=
  .obj [("from", .num s.fromPos), ("to", .num s.toPos)]

/-- Modelled from the spec: kotlinx with `encodeDefaults = false` (the `Json`
default) omits a nullable `span` property that is `null`. -/
def encodeSpanField (span : Option SourceSpan) : List (String × Json) :=
  match span with
  | none => []
  | some s => [("span", encodeSpan s)]

/-- Encode a `FieldRefNode`; the `kind` property is omitted when it equals
its default `"fieldRef"`. -/
def encodeFieldRef (f : FieldRefNode) : Json :=
  .obj ((if f.kind = "fieldRef" then [] else [("kind", .str f.kind)]) ++
    [("name", .str f.name)] ++ encodeSpanField f.span)

/-- Encode a logical operator. -/
def encodeLogicalOperator (op : LogicalOperator) : Json :=
  match op with
  | .AND => .str "AND"
  | .OR => .str "OR"

mutual

/-- Encode a value node with its `kind` discriminator. -/
def encodeValue : QueryValueNode → Json
  | .stringLiteral v span =>
    .obj ([("kind", .str "stringLiteral"), ("value", .str v)] ++
      encodeSpanField span)
  | .numberLiteral v raw span =>
    .obj ([("kind", .str "numberLiteral"), ("value", .num v),
      ("raw", .str raw)] ++ encodeSpanField span)
  | .booleanLiteral v span =>
    .obj ([("kind", .str "booleanLiteral"), ("value", .bool v)] ++
      encodeSpanField span)
  | .list items span =>
    .obj ([("kind", .str "list"), ("items", .arr (encodeValueList items))] ++
      encodeSpanField span)

/-- `encodeValue` over a list's items. -/
def encodeValueList : List QueryValueNode → List Json
  | [] => []
  | v :: rest => encodeValue v :: encodeValueList rest

end

/-- Encode an AST node with its `kind` discriminator. -/
def encodeNode : QueryAstNode → Json
  | .comparison field operator value span =>
    .obj ([("kind", .str "comparison"), ("field", encodeFieldRef field),
      ("operator", .str operator), ("value", encodeValue value)] ++
      encodeSpanField span)
  | .logical operator left right span =>
    .obj ([("kind", .str "logical"),
      ("operator", encodeLogicalOperator operator),
      ("left", encodeNode left), ("right", encodeNode right)] ++
      encodeSpanField span)
  | .not expression span =>
    .obj ([("kind", .str "not"), ("expression", encodeNode expression)] ++
      encodeSpanField span)

/-- Encode an envelope (the `metadata` property is omitted when `null`). -/
def encodeEnvelope (e : QueryAstEnvelope) : Json :=
  .obj ([("astVersion", .str e.astVersion),
    ("grammarVersion", .str e.grammarVersion),
    ("source", .obj [("rawQuery", .str e.source.rawQuery)]),
    ("root", encodeNode e.root)] ++
    (match e.metadata with
     | none => []
     | some m =>
       [("metadata", .obj [("parser", .str m.parser),
         ("nodeCount", .num m.nodeCount), ("maxDepth", .num m.maxDepth)])]))

/-- Decode a JSON string. -/
def decodeString : Json → Except String String
  | .str s => .ok s
  | _ => .error "expected a string"

/-- Decode a JSON integer. -/
def decodeInt : Json → Except String Int
  | .num n => .ok n
  | _ => .error "expected a number"

/-- Decode a JSON boolean. -/
def decodeBool : Json → Except String Bool
  | .bool b => .ok b
  | _ => .error "expected a boolean"

/-- Decode a span object. -/
def decodeSpan : Json → Except String SourceSpan
  | .obj fields =>
    match jfield fields "from", jfield fields "to" with
    | some f, some t => do
      let fromPos ← decodeInt f
      let toPos ← decodeInt t
      .ok { fromPos := fromPos, toPos := toPos }
    | _, _ => .error "span requires from and to"
  | _ => .error "expected a span object"

/-- Decode an optional `span` property (absent or `null` decodes to
`none`). -/
def decodeOptSpan (fields : List (String × Json)) :
    Except String (Option SourceSpan) :=
  match jfield fields "span" with
  | none => .ok none
  | some .null => .ok none
  | some j => (decodeSpan j).map some

/-- Decode a `FieldRefNode` (a missing `kind` decodes to the default). -/
def decodeFieldRef : Json → Except String FieldRefNode
  | .obj fields => do
    let kind ←
      match jfield fields "kind" with
      | none => .ok "fieldRef"
      | some j => decodeString j
    let name ←
      match jfield fields "name" with
      | none => .error "fieldRef requires name"
      | some j => decodeString j
    let span ← decodeOptSpan fields
    .ok { kind := kind, name := name, span := span }
  | _ => .error "expected a fieldRef object"

/-- Decode a logical operator. -/
def decodeLogicalOperator (j : Json) : Except String LogicalOperator := do
  let s ← decodeString j
  match s with
  | "AND" => .ok .AND
  | "OR" => .ok .OR
  | _ => .error "unknown logical operator"

mutual

/-- Decode a value node by its `kind` discriminator; an unknown or missing
discriminator fails, as kotlinx decoding does. -/
def decodeValue : Json → Except String QueryValueNode
  | .obj fields =>
    match jfield fields "kind" with
    | some (.str "stringLiteral") =>
      (match jfield fields "value" with
       | none => .error "stringLiteral requires value"
       | some j => do
         let v ← decodeString j
         let span ← decodeOptSpan fields
         .ok (.stringLiteral v span))
    | some (.str "numberLiteral") =>
      (match jfield fields "value", jfield fields "raw" with
       | some jv, some jr => do
         let v ← decodeInt jv
         let raw ← decodeString jr
         let span ← decodeOptSpan fields
         .ok (.numberLiteral v raw span)
       | _, _ => .error "numberLiteral requires value and raw")
    | some (.str "booleanLiteral") =>
      (match jfield fields "value" with
       | none => .error "booleanLiteral requires value"
       | some j => do
         let v ← decodeBool j
         let span ← decodeOptSpan fields
         .ok (.booleanLiteral v span))
    | some (.str "list") =>
      (match decodeItemsField fields with
       | .error e => .error e
       | .ok items =>
         (decodeOptSpan fields).map (fun span => .list items span))
    | _ => .error "unknown value kind"
  | _ => .error "expected a value object"

/-- Find the `items` property and decode its array (a child-walking lookup so
the recursion is structural). -/
def decodeItemsField :
    List (String × Json) → Except String (List QueryValueNode)
  | [] => .error "list requires items"
  | (k, v) :: rest =>
    if k = "items" then decodeValueArr v else decodeItemsField rest

/-- Decode a JSON array of value nodes. -/
def decodeValueArr : Json → Except String (List QueryValueNode)
  | .arr items => decodeValueListJ items
  | _ => .error "expected an array"

/-- `decodeValue` over an array's elements. -/
def decodeValueListJ : List Json → Except String (List QueryValueNode)
  | [] => .ok []
  | j :: rest =>
    match decodeValue j with
    | .ok v =>
      match decodeValueListJ rest with
      | .ok vs => .ok (v :: vs)
      | .error e => .error e
    | .error e => .error e

end

mutual

/-- Decode an AST node by its `kind` discriminator. -/
def decodeNode : Json → Except String QueryAstNode
  | .obj fields =>
    match jfield fields "kind" with
    | some (.str "comparison") =>
      (match jfield fields "field", jfield fields "operator",
          jfield fields "value" with
       | some jf, some jo, some jv => do
         let field ← decodeFieldRef jf
         let operator ← decodeString jo
         let value ← decodeValue jv
         let span ← decodeOptSpan fields
         .ok (.comparison field operator value span)
       | _, _, _ => .error "comparison requires field, operator and value")
    | some (.str "logical") =>
      (match jfield fields "operator" with
       | none => .error "logical requires operator"
       | some jo =>
         match decodeLogicalOperator jo with
         | .error e => .error e
         | .ok operator =>
           match decodeNodeField "left" fields with
           | .error e => .error e
           | .ok left =>
             match decodeNodeField "right" fields with
             | .error e => .error e
             | .ok right =>
               (decodeOptSpan fields).map
                 (fun span => .logical operator left right span))
    | some (.str "not") =>
      (match decodeNodeField "expression" fields with
       | .error e => .error e
       | .ok expression =>
         (decodeOptSpan fields).map (fun span => .not expression span))
    | _ => .error "unknown node kind"
  | _ => .error "expected a node object"

/-- Find a property by key and decode it as an AST node (a child-walking
lookup so the recursion is structural). -/
def decodeNodeField (key : String) :
    List (String × Json) → Except String QueryAstNode
  | [] => .error ("missing required field " ++ key)
  | (k, v) :: rest =>
    if k = key then decodeNode v else decodeNodeField key rest

end

/-- Decode metadata. -/
def decodeMetadata : Json → Except String QueryAstMetadata
  | .obj fields =>
    match jfield fields "parser", jfield fields "nodeCount",
        jfield fields "maxDepth" with
    | some jp, some jn, some jd => do
      let parser ← decodeString jp
      let nodeCount ← decodeInt jn
      let maxDepth ← decodeInt jd
      .ok { parser := parser, nodeCount := nodeCount, maxDepth := maxDepth }
    | _, _, _ => .error "metadata requires parser, nodeCount and maxDepth"
  | _ => .error "expected a metadata object"

/-- Decode an envelope from a JSON value (a missing required field or an
unknown discriminator fails, surfaced as `AST_DECODE_FAILED`). -/
def decodeEnvelope : Json → Except String QueryAstEnvelope
  | .obj fields =>
    match jfield fields "astVersion", jfield fields "grammarVersion",
        jfield fields "source", jfield fields "root" with
    | some ja, some jg, some js, some jr => do
      let astVersion ← decodeString ja
      let grammarVersion ← decodeString jg
      let rawQuery ←
        match js with
        | .obj sourceFields =>
          match jfield sourceFields "rawQuery" with
          | none => .error "source requires rawQuery"
          | some j => decodeString j
        | _ => .error "expected a source object"
      let root ← decodeNode jr
      let metadata ←
        match jfield fields "metadata" with
        | none => .ok none
        | some .null => .ok none
        | some j => (decodeMetadata j).map some
      .ok { astVersion := astVersion, grammarVersion := grammarVersion,
            source := { rawQuery := rawQuery }, root := root,
            metadata := metadata }
    | _, _, _, _ =>
      .error "envelope requires astVersion, grammarVersion, source and root"
  | _ => .error "expected an envelope object"

/-- `DefaultQueryAstEngine.decodeAndValidateEnvelope`, at the JSON-value
level: a decode failure yields `AST_DECODE_FAILED` and a null envelope; a
decoded envelope is structurally validated and returned alongside its
diagnostics. -/
def decodeAndValidateEnvelope (cfg : EngineConfig) (j : Json) :
    AstEnvelopeValidationResult :=
  match decodeEnvelope j with
  | .error msg =>
    { valid := false, envelope := none,
      diagnostics :=
        [{ severity := .ERROR, code := "AST_DECODE_FAILED", message := msg,
           fromPos := 0, toPos := 1, source := "ast" }] }
  | .ok envelope =>
    let diagnostics := validateStructure cfg envelope
    { valid := !hasError diagnostics, envelope := some envelope,
      diagnostics := diagnostics }

end Backend

namespace Completion

open Frontend

/-- The tagged completion context (`completion-syntax.ts`
`CompletionSyntaxContext`); the source's `prefix` payload is named
`prefixText`. -/
inductive CompletionSyntaxContext where
  | inListValueStart (fieldName : Option String)
  | clauseStart
  | afterNot
  | afterField (fieldName : String)
  | partialClauseStart (prefixText : String)
  | partialAfterNot (prefixText : String)
  | afterInOperator
  | afterCompareOperator (fieldName : Option String)
  | clauseBoundary
  | fallback
deriving DecidableEq, Repr

/-- The result of `inferPartialIdentifierContext`
(`"clauseStart" | "afterNot" | null` in the source). -/
inductive PartialContextKind where
  | clauseStart
  | afterNot
deriving DecidableEq, Repr

/-- `nodeText` from `completion-syntax.ts`:
`query.slice(node.from, node.to)`. -/
def nodeText (query : String) (node : SNode) : String :=
  (query.take node.toPos).drop node.fromPos

/-- `isWhitespaceChar` from `completion-syntax.ts` (space, tab, newline,
carriage return; `undefined` is not whitespace). -/
def isWhitespaceChar (c : Option Char) : Bool :=
  c = some ' ' || c = some '\t' || c = some '\n' || c = some '\x0d'

mutual

/-- Structural equality of syntax nodes, modelling the source's `===` object
identity between two navigations reaching the same tree node. -/
def SNode.beq : SNode → SNode → Bool
  | .mk n1 a1 b1 e1 cs1, .mk n2 a2 b2 e2 cs2 =>
    n1 = n2 && a1 = a2 && b1 = b2 && e1 = e2 && SNode.beqList cs1 cs2

/-- `SNode.beq` over child lists. -/
def SNode.beqList : List SNode → List SNode → Bool
  | [], [] => true
  | c1 :: r1, c2 :: r2 => SNode.beq c1 c2 && SNode.beqList r1 r2
  | _, _ => false

end

/-- The cursor is represented by its ancestor paths: a `List SNode` holds a
leaf (or inner) node first, followed by its ancestors up to the tree root, so
the source's `node.parent` walks are walks along the list. -/
structure ParsedCursor where
  query : String
  before : String
  leafAtPos : List SNode
  leafAtTrimmed : List SNode
  trimmedPos : Nat
  lastNonWhitespaceChar : Option Char
  identifierAtCursorEnd : Option (List SNode)
  identifierAtTrimmedPos : Option (List SNode)
  trailingIdentifier : String

/-- `nearestAncestorNamed` from `completion-syntax.ts`: the suffix of the
path starting at the first node with the given name (the node itself
included, as in the source's walk starting at `node`). -/
def nearestAncestorNamed : List SNode → String → Option (List SNode)
  | [], _ => none
  | n :: rest, nm =>
    if n.name = nm then some (n :: rest) else nearestAncestorNamed rest nm

/-- The backwards scan of `parseCursor`: starting at index `i - 1`, skip
whitespace characters downwards and return the index reached (`none` models
reaching index `-1`). -/
def lastNonWsFrom (chars : List Char) : Nat → Option Nat
  | 0 => none
  | i + 1 =>
    if isWhitespaceChar (chars.get? i) then lastNonWsFrom chars i else some i

/-- `parseCursor` from `completion-syntax.ts`; `resolveAt` is the external
lezer `tree.topNode.resolveInner(·, -1)`, returning the resolved node's
ancestor path. -/
def parseCursor (resolveAt : Nat → List SNode) (query : String) (pos : Nat) :
    ParsedCursor :=
  let chars := query.toList
  let lastNonWhitespacePos := lastNonWsFrom chars pos
  let trimmedPos := match lastNonWhitespacePos with
    | none => 0
    | some i => i + 1
  let leafAtPos := resolveAt pos
  let leafAtTrimmed := resolveAt trimmedPos
  let identifierAtCursorCandidate := nearestAncestorNamed leafAtPos "Identifier"
  let identifierAtTrimmedCandidate :=
    nearestAncestorNamed leafAtTrimmed "Identifier"
  let identifierAtCursorEnd :=
    match identifierAtCursorCandidate with
    | some (n :: rest) => if n.toPos = pos then some (n :: rest) else none
    | _ => none
  let identifierAtTrimmedPos :=
    match identifierAtTrimmedCandidate with
    | some (n :: rest) => if n.toPos = trimmedPos then some (n :: rest)
        else none
    | _ => none
  { query := query,
    before := query.take pos,
    leafAtPos := leafAtPos,
    leafAtTrimmed := leafAtTrimmed,
    trimmedPos := trimmedPos,
    lastNonWhitespaceChar :=
      match lastNonWhitespacePos with
      | none => none
      | some i => chars.get? i,
    identifierAtCursorEnd := identifierAtCursorEnd,
    identifierAtTrimmedPos := identifierAtTrimmedPos,
    trailingIdentifier :=
      match identifierAtCursorEnd with
      | some (n :: _) => nodeText query n
      | _ => "" }

/-- `tokenEndingAtTrimmedPos` from `completion-syntax.ts`: walk up from the
leaf at the trimmed position to the first node with the given name ending
exactly there. -/
def tokenEndingAt (trimmedPos : Nat) (nm : String) :
    List SNode → Option (List SNode)
  | [] => none
  | n :: rest =>
    if n.name = nm ∧ n.toPos = trimmedPos then some (n :: rest)
    else tokenEndingAt trimmedPos nm rest

/-- `tokenEndingAtTrimmedPos` applied to a cursor. -/
def tokenEndingAtTrimmedPos (cursor : ParsedCursor) (nm : String) :
    Option (List SNode) :=
  tokenEndingAt cursor.trimmedPos nm cursor.leafAtTrimmed

/-- `inferPartialIdentifierContext` from `completion-syntax.ts`. -/
def inferPartialIdentifierContext (cursor : ParsedCursor) :
    Option PartialContextKind :=
  match cursor.identifierAtCursorEnd with
  | none => none
  | some idPath =>
    match nearestAncestorNamed idPath "Field",
        nearestAncestorNamed idPath "Comparison",
        nearestAncestorNamed idPath "Primary" with
    | some _, some (comparison :: _), some (primary :: primaryRest) =>
      if (comparison.getChild "CompareOperator").isSome ∨
          (comparison.getChild "InOperator").isSome then none
      else
        match nearestAncestorNamed (primary :: primaryRest)
            "NotExpression" with
        | some (notExpression :: _) =>
          (match notExpression.getChild "Primary" with
           | some directPrimary =>
             if SNode.beq directPrimary primary ∧
                 (notExpression.getChild "NotOp").isSome then
               some .afterNot
             else some .clauseStart
           | none => some .clauseStart)
        | _ => none
    | _, _, _ => none

/-- `fieldNameAtTrimmedIdentifier` from `completion-syntax.ts`. -/
def fieldNameAtTrimmedIdentifier (cursor : ParsedCursor)
    (spec : QueryLanguageSpec) : Option String :=
  match cursor.identifierAtTrimmedPos with
  | some (idNode :: _) =>
    let text := nodeText cursor.query idNode
    if spec.fields.any (fun field => field.name = text) then some text
    else none
  | _ => none

/-- `isClauseStartContext` from `completion-syntax.ts`. -/
def isClauseStartContext (cursor : ParsedCursor) : Bool :=
  if (jsTrim cursor.before).length = 0 then true
  else if (tokenEndingAtTrimmedPos cursor "AndOp").isSome ||
      (tokenEndingAtTrimmedPos cursor "OrOp").isSome then true
  else if ¬cursor.lastNonWhitespaceChar = some '(' then false
  else
    (nearestAncestorNamed cursor.leafAtPos "ListLiteral").isNone &&
      (nearestAncestorNamed cursor.leafAtPos "Group").isSome

/-- `isAfterNotKeywordContext` from `completion-syntax.ts`. -/
def isAfterNotKeywordContext (cursor : ParsedCursor) : Bool :=
  match tokenEndingAtTrimmedPos cursor "NotOp" with
  | none => false
  | some notOpPath =>
    match nearestAncestorNamed notOpPath "NotExpression" with
    | some (notExpression :: _) => !(notExpression.getChild "Primary").isSome
    | _ => false

/-- `isAfterCompareOperatorContext` from `completion-syntax.ts`. -/
def isAfterCompareOperatorContext (cursor : ParsedCursor) : Bool :=
  match tokenEndingAtTrimmedPos cursor "CompareOperator" with
  | none => false
  | some opPath =>
    match nearestAncestorNamed opPath "Comparison" with
    | some (comparison :: _) => !(comparison.getChild "ScalarValue").isSome
    | _ => false

/-- `isAfterInOperatorContext` from `completion-syntax.ts`. -/
def isAfterInOperatorContext (cursor : ParsedCursor) : Bool :=
  match tokenEndingAtTrimmedPos cursor "InOperator" with
  | none => false
  | some opPath =>
    match nearestAncestorNamed opPath "Comparison" with
    | some (comparison :: _) => !(comparison.getChild "ListLiteral").isSome
    | _ => false

/-- `isInListValueElementStartContext` from `completion-syntax.ts`. -/
def isInListValueElementStartContext (cursor : ParsedCursor) : Bool :=
  if ¬(cursor.lastNonWhitespaceChar = some '(' ∨
      cursor.lastNonWhitespaceChar = some ',') then false
  else
    match (nearestAncestorNamed cursor.leafAtPos "ListLiteral").orElse
        (fun _ => nearestAncestorNamed cursor.leafAtTrimmed "ListLiteral") with
    | none => false
    | some listLiteralPath =>
      match nearestAncestorNamed listLiteralPath "Comparison" with
      | some (comparison :: _) => (comparison.getChild "InOperator").isSome
      | _ => false

/-- `isCompleteComparisonNode` from `completion-syntax.ts`. -/
def isCompleteComparisonNode (node : SNode) : Bool :=
  if ¬node.name = "Comparison" then false
  else if (node.getChild "CompareOperator").isSome ∧
      (node.getChild "ScalarValue").isSome then true
  else if (node.getChild "InOperator").isSome ∧
      (node.getChild "ListLiteral").isSome then true
  else (node.getChild "Field").isSome

/-- `isCompleteNotExpressionNode` from `completion-syntax.ts`. -/
def isCompleteNotExpressionNode (node : SNode) : Bool :=
  if ¬node.name = "NotExpression" then false
  else
    match node.getChild "Primary" with
    | none => false
    | some primary =>
      if (node.getChild "NotOp").isSome then
        decide (primary.fromPos >
          (((node.getChild "NotOp").map SNode.toPos).getD node.fromPos))
      else true

/-- The ancestor walk of `isClauseBoundaryContext` (the `continue` is the
walk to the parent). -/
def clauseBoundaryWalk (trimmedPos : Nat) : List SNode → Bool
  | [] => false
  | n :: rest =>
    if ¬n.toPos = trimmedPos then clauseBoundaryWalk trimmedPos rest
    else if n.name = "Comparison" ∧ isCompleteComparisonNode n then true
    else if n.name = "Group" then true
    else if n.name = "NotExpression" ∧ isCompleteNotExpressionNode n then true
    else clauseBoundaryWalk trimmedPos rest

/-- `isClauseBoundaryContext` from `completion-syntax.ts`. -/
def isClauseBoundaryContext (cursor : ParsedCursor) : Bool :=
  clauseBoundaryWalk cursor.trimmedPos cursor.leafAtTrimmed

/-- `fieldNameFromComparison` from `completion-syntax.ts`. -/
def fieldNameFromComparison (query : String) (comparison : SNode) :
    Option String :=
  (comparison.getChild "Field").bind
    (fun field => (field.getChild "Identifier").map
      (fun identifier => nodeText query identifier))

/-- `fieldNameFromEnclosingComparison` from `completion-syntax.ts`. -/
def fieldNameFromEnclosingComparison (cursor : ParsedCursor) :
    Option String :=
  match (nearestAncestorNamed cursor.leafAtPos "Comparison").orElse
      (fun _ => nearestAncestorNamed cursor.leafAtTrimmed "Comparison") with
  | some (comparison :: _) => fieldNameFromComparison cursor.query comparison
  | _ => none

/-- The first-match classification chain of `inferCompletionSyntaxContext`
from `completion-syntax.ts`. -/
def classifyCursor (cursor : ParsedCursor) (spec : QueryLanguageSpec) :
    CompletionSyntaxContext :=
  if isInListValueElementStartContext cursor then
    .inListValueStart (fieldNameFromEnclosingComparison cursor)
  else if isClauseStartContext cursor then .clauseStart
  else if isAfterNotKeywordContext cursor then .afterNot
  else
    match fieldNameAtTrimmedIdentifier cursor spec with
    | some exactFieldToken => .afterField exactFieldToken
    | none =>
      match
        (if ¬cursor.trailingIdentifier = "" then
          inferPartialIdentifierContext cursor
        else none) with
      | some .clauseStart => .partialClauseStart cursor.trailingIdentifier
      | some .afterNot => .partialAfterNot cursor.trailingIdentifier
      | none =>
        if isAfterInOperatorContext cursor then .afterInOperator
        else if isAfterCompareOperatorContext cursor then
          .afterCompareOperator (fieldNameFromEnclosingComparison cursor)
        else if isClauseBoundaryContext cursor then .clauseBoundary
        else .fallback

/-- `inferCompletionSyntaxContext` from `completion-syntax.ts`: parse the
cursor, then classify by the first-match priority chain. -/
def inferCompletionSyntaxContext (resolveAt : Nat → List SNode)
    (query : String) (pos : Nat) (spec : QueryLanguageSpec) :
    CompletionSyntaxContext :=
  classifyCursor (parseCursor resolveAt query pos) spec

end Completion

namespace Frontend

/-- Whether every span of a literal equals `span`. -/
def spansEqLiteral (span : SourceSpan) : LiteralNode → Bool
  | .stringLiteral _ s => s == span
  | .booleanLiteral _ s => s == span
  | .numberLiteral _ _ s => s == span

/-- Whether every span of a value — the list span and, recursively, every
list item span — equals `span`. -/
def spansEqValue (span : SourceSpan) : ValueNode → Bool
  | .lit l => spansEqLiteral span l
  | .list items s => s == span && items.all (fun item => spansEqLiteral span item)

/-- Whether every span of an AST subtree — node spans, field-ref spans and
value spans — equals `span`. -/
def spansEqNode (span : SourceSpan) : QueryAstNode → Bool
  | .comparison field _ value s =>
    s == span && field.span == span && spansEqValue span value
  | .logical _ left right s =>
    s == span && spansEqNode span left && spansEqNode span right
  | .not expression s => s == span && spansEqNode span expression

/-- The claim's description of the `OR`/`AND` fold: combine the terms in
order, left-associatively, each new `Logical` node carrying the span of the
whole clause list. -/
def leftCombine (span : SourceSpan) (operator : LogicalOperator) :
    QueryAstNode → List QueryAstNode → QueryAstNode
  | current, [] => current
  | current, next :: rest =>
    leftCombine span operator (.logical operator current next span) rest

/-- The number of `Logical` nodes in an AST. -/
def logicalCount : QueryAstNode → Nat
  | .comparison _ _ _ _ => 0
  | .logical _ left right _ => 1 + logicalCount left + logicalCount right
  | .not expression _ => logicalCount expression

/-- A childless syntax node for test trees. -/
def leafNode (nm : String) (a b : Nat) : SNode := .mk nm a b false []

/-- A syntax node with children for test trees. -/
def wrapNode (nm : String) (a b : Nat) (cs : List SNode) : SNode :=
  .mk nm a b false cs

/-- The expression spine `Query > Expression > OrExpression > AndExpression >
NotExpression > Primary` the grammar produces around a single clause
(modelled from the spec's grammar node inventory). -/
def exprChainCST (a b : Nat) (inner : SNode) : SNode :=
  wrapNode "Query" a b [wrapNode "Expression" a b [wrapNode "OrExpression" a b
    [wrapNode "AndExpression" a b [wrapNode "NotExpression" a b
      [wrapNode "Primary" a b [inner]]]]]]

/-- The `MacroCall` node of the input `nm ++ "()"`. -/
def macroCallInner (nm : String) : SNode :=
  wrapNode "MacroCall" 0 (nm.length + 2) [leafNode "Identifier" 0 nm.length]

/-- The parse tree of the input `nm ++ "()"`. -/
def macroCallCST (nm : String) : SNode :=
  exprChainCST 0 (nm.length + 2) (macroCallInner nm)

/-- The parse tree of `status = "Open"` (spans: field 0–6, operator 7–8,
string literal 9–15). -/
def statusOpenCST : SNode :=
  exprChainCST 0 15
    (wrapNode "Comparison" 0 15
      [wrapNode "Field" 0 6 [leafNode "Identifier" 0 6],
       leafNode "CompareOperator" 7 8,
       wrapNode "ScalarValue" 9 15 [leafNode "String" 9 15]])

/-- The `Comparison` node of the bare field reference `archived`
(a field reference with no operator and no value). -/
def bareFieldComparisonCST : SNode :=
  wrapNode "Comparison" 0 8 [wrapNode "Field" 0 8 [leafNode "Identifier" 0 8]]

/-- The `Comparison` node of the bare field reference `status`. -/
def bareStatusComparisonCST : SNode :=
  wrapNode "Comparison" 0 6 [wrapNode "Field" 0 6 [leafNode "Identifier" 0 6]]

/-- Modelled from the spec: the external parser, as an oracle for the
concrete test inputs — `status = "Open"` parses to its comparison tree and
any `name()` input parses to its macro-call tree. -/
def demoParse (s : String) : SNode :=
  if s = "status = \"Open\"" then statusOpenCST
  else macroCallCST (s.dropRight 2)

/-- A spec with a string field `status` and the alias
`isOpen = status = "Open"`. -/
def demoSpecIsOpen : QueryLanguageSpec :=
  { version := "1",
    fields := [{ name := "status", type := .string }],
    operatorsByType := [(.string, ["=", "!=", "IN", "NOT IN"])],
    functions := some [{ name := "isOpen", expansion := "status = \"Open\"" }] }

/-- Analysis options over `demoSpecIsOpen`. -/
def demoOptsIsOpen : AnalyzeQueryOptions :=
  { astVersion := "1", grammarVersion := "1", languageSpec := demoSpecIsOpen }

/-- The build context `createAstBuildContext` produces for
`demoSpecIsOpen`. -/
def demoCtxIsOpen : AstBuildContext :=
  { languageSpec := demoSpecIsOpen,
    macroAliases :=
      [("isOpen", { name := "isOpen", expansion := "status = \"Open\"" })],
    macroStack := [], macroDepth := 0, parse := demoParse }

/-- A spec with the mutually recursive aliases `a() → b()` and
`b() → a()`. -/
def demoSpecCycle : QueryLanguageSpec :=
  { version := "1", fields := [], operatorsByType := [],
    functions := some [{ name := "a", expansion := "b()" },
                       { name := "b", expansion := "a()" }] }

/-- Analysis options over `demoSpecCycle`. -/
def demoOptsCycle : AnalyzeQueryOptions :=
  { astVersion := "1", grammarVersion := "1", languageSpec := demoSpecCycle }

/-- The chain of 11 aliases `m1() → m2() → … → m11() → status = "Open"`. -/
def chainAliases : List MacroAliasSpec :=
  [{ name := "m1", expansion := "m2()" }, { name := "m2", expansion := "m3()" },
   { name := "m3", expansion := "m4()" }, { name := "m4", expansion := "m5()" },
   { name := "m5", expansion := "m6()" }, { name := "m6", expansion := "m7()" },
   { name := "m7", expansion := "m8()" }, { name := "m8", expansion := "m9()" },
   { name := "m9", expansion := "m10()" },
   { name := "m10", expansion := "m11()" },
   { name := "m11", expansion := "status = \"Open\"" }]

/-- A spec declaring the 11-alias chain. -/
def demoSpecChain : QueryLanguageSpec :=
  { version := "1", fields := [{ name := "status", type := .string }],
    operatorsByType := [(.string, ["="])], functions := some chainAliases }

/-- Analysis options over `demoSpecChain`. -/
def demoOptsChain : AnalyzeQueryOptions :=
  { astVersion := "1", grammarVersion := "1", languageSpec := demoSpecChain }

/-- The macro alias index of the chain spec. -/
def chainIndex : List (String × MacroAliasSpec) :=
  chainAliases.map (fun fn => (fn.name, fn))

/-- The build context during chain expansion, at the given stack and
depth. -/
def chainCtx (stack : List String) (depth : Nat) : AstBuildContext :=
  { languageSpec := demoSpecChain, macroAliases := chainIndex,
    macroStack := stack, macroDepth := depth, parse := demoParse }

/-- The names `m1 … mK` in order. -/
def chainStack : Nat → List String
  | 0 => []
  | k + 1 => chainStack k ++ ["m" ++ toString (k + 1)]

/-- The diagnostic error the chain expansion stops with: the depth ceiling,
raised at the call of `m11` (the eleventh in-progress expansion), spanning
that call's `MacroCall` node in the input `m11()`. -/
def chainDepthError : BuildError :=
  .diag "MACRO_EXPANSION_DEPTH_EXCEEDED"
    "Macro alias expansion depth exceeded (10)" { fromPos := 0, toPos := 5 }

/-- A spec with a boolean field `archived` and a string field `status`. -/
def demoSpecBool : QueryLanguageSpec :=
  { version := "1",
    fields := [{ name := "archived", type := .boolean },
               { name := "status", type := .string }],
    operatorsByType := [(.string, ["="]), (.boolean, ["="])] }

/-- A build context over `demoSpecBool`. -/
def demoCtxBool : AstBuildContext :=
  { languageSpec := demoSpecBool, macroAliases := [], macroStack := [],
    macroDepth := 0, parse := demoParse }

end Frontend

namespace Backend

/-- A backend spec: `status: string, enum[Open, Closed]` and
`priority: number`. -/
def demoSpec : QueryLanguageSpec :=
  { version := "1",
    fields := [{ name := "status", type := .STRING,
                 enumValues := some ["Open", "Closed"] },
               { name := "priority", type := .NUMBER }],
    operatorsByType :=
      [(.STRING, ["=", "!=", "IN", "NOT IN"]),
       (.NUMBER, ["=", "!=", ">", ">=", "<", "<="])] }

/-- A structurally and semantically valid envelope for
`status = "Open"`. -/
def demoEnvelopeOk : QueryAstEnvelope :=
  { astVersion := "1", grammarVersion := "1",
    source := { rawQuery := "status = \"Open\"" },
    root := .comparison { name := "status" } "="
      (.stringLiteral "Open" none) none }

/-- An envelope violating two independent structural bounds: an unsupported
`astVersion` and a blank `grammarVersion`. -/
def demoEnvelopeTwoViolations : QueryAstEnvelope :=
  { astVersion := "999", grammarVersion := "",
    source := { rawQuery := "status = \"Open\"" },
    root := .comparison { name := "status" } "="
      (.stringLiteral "Open" none) none }

/-- An envelope that decodes but fails structural validation (unsupported
`astVersion`). -/
def demoEnvelopeBadVersion : QueryAstEnvelope :=
  { astVersion := "999", grammarVersion := "1",
    source := { rawQuery := "status = \"Open\"" },
    root := .comparison { name := "status" } "="
      (.stringLiteral "Open" none) none }

end Backend

namespace Backend

/-- Whether a value node is a `list` variant. -/
def QueryValueNode.isList : QueryValueNode → Bool
  | .list _ _ => true
  | _ => false

end Backend

namespace Frontend

/-- The fold of `foldLogical` agrees with the claim-side left-associative
combination. -/
theorem foldl_eq_leftCombine (span : SourceSpan) (operator : LogicalOperator) :
    ∀ (rest : List QueryAstNode) (current : QueryAstNode),
      rest.foldl (fun cur nxt => .logical operator cur nxt span) current =
        leftCombine span operator current rest
  | [], current => rfl
  | next :: rest, current => by
    simp only [List.foldl, leftCombine]
    exact foldl_eq_leftCombine span operator rest (.logical operator current next span)

/-- `leftCombine` adds one `Logical` node per combined term. -/
theorem logicalCount_leftCombine (span : SourceSpan)
    (operator : LogicalOperator) :
    ∀ (rest : List QueryAstNode) (current : QueryAstNode),
      logicalCount (leftCombine span operator current rest) =
        rest.length + logicalCount current + (rest.map logicalCount).sum
  | [], current => by simp [leftCombine]
  | next :: rest, current => by
    simp only [leftCombine, List.length_cons, List.map_cons, List.sum_cons]
    rw [logicalCount_leftCombine span operator rest]
    simp [logicalCount]
    omega

end Frontend

/-- C7: for every `OR` (respectively `AND`) clause list of `n ≥ 2` terms,
`foldLogical` folds the terms left-associatively — combining `t1 … tn` in
order, the accumulated node on the left and each new term on the right — and
the `n − 1` `Logical` nodes it creates each carry the span of the whole
clause list (`leftCombine` is that description, written from the claim). -/
theorem C7_foldLogical_left_associative (node : Frontend.SNode)
    (operator : Frontend.LogicalOperator)
    (terms : List Frontend.QueryAstNode) (t : Frontend.QueryAstNode)
    (rest : List Frontend.QueryAstNode) (hterms : terms = t :: rest)
    (hlen : 2 ≤ terms.length) :
    Frontend.foldLogical node terms operator =
      .ok (Frontend.leftCombine (Frontend.spanOf node) operator t rest) ∧
    Frontend.logicalCount
        (Frontend.leftCombine (Frontend.spanOf node) operator t rest) =
      (terms.length - 1) + (terms.map Frontend.logicalCount).sum := by
  subst hterms
  refine ⟨?_, ?_⟩
  · simp only [Frontend.foldLogical]
    rw [Frontend.foldl_eq_leftCombine]
  · rw [Frontend.logicalCount_leftCombine]
    simp
    omega

/-- Witness for C7: three comparisons fold into two right-nested `Logical`
pairs, every one spanning the whole clause list. -/
theorem C7_witness :
    Frontend.foldLogical (Frontend.wrapNode "OrExpression" 0 9 [])
        [Frontend.QueryAstNode.comparison { name := "a", span := ⟨0, 1⟩ } "="
           (.lit (.booleanLiteral true ⟨0, 1⟩)) ⟨0, 1⟩,
         Frontend.QueryAstNode.comparison { name := "b", span := ⟨4, 5⟩ } "="
           (.lit (.booleanLiteral true ⟨4, 5⟩)) ⟨4, 5⟩,
         Frontend.QueryAstNode.comparison { name := "c", span := ⟨8, 9⟩ } "="
           (.lit (.booleanLiteral true ⟨8, 9⟩)) ⟨8, 9⟩] .OR =
      .ok (.logical .OR
        (.logical .OR
          (Frontend.QueryAstNode.comparison { name := "a", span := ⟨0, 1⟩ } "="
            (.lit (.booleanLiteral true ⟨0, 1⟩)) ⟨0, 1⟩)
          (Frontend.QueryAstNode.comparison { name := "b", span := ⟨4, 5⟩ } "="
            (.lit (.booleanLiteral true ⟨4, 5⟩)) ⟨4, 5⟩) ⟨0, 9⟩)
        (Frontend.QueryAstNode.comparison { name := "c", span := ⟨8, 9⟩ } "="
          (.lit (.booleanLiteral true ⟨8, 9⟩)) ⟨8, 9⟩) ⟨0, 9⟩) := by
  have h := C7_foldLogical_left_associative
    (Frontend.wrapNode "OrExpression" 0 9 []) .OR
    [Frontend.QueryAstNode.comparison { name := "a", span := ⟨0, 1⟩ } "="
       (.lit (.booleanLiteral true ⟨0, 1⟩)) ⟨0, 1⟩,
     Frontend.QueryAstNode.comparison { name := "b", span := ⟨4, 5⟩ } "="
       (.lit (.booleanLiteral true ⟨4, 5⟩)) ⟨4, 5⟩,
     Frontend.QueryAstNode.comparison { name := "c", span := ⟨8, 9⟩ } "="
       (.lit (.booleanLiteral true ⟨8, 9⟩)) ⟨8, 9⟩]
    (Frontend.QueryAstNode.comparison { name := "a", span := ⟨0, 1⟩ } "="
       (.lit (.booleanLiteral true ⟨0, 1⟩)) ⟨0, 1⟩)
    [Frontend.QueryAstNode.comparison { name := "b", span := ⟨4, 5⟩ } "="
       (.lit (.booleanLiteral true ⟨4, 5⟩)) ⟨4, 5⟩,
     Frontend.QueryAstNode.comparison { name := "c", span := ⟨8, 9⟩ } "="
       (.lit (.booleanLiteral true ⟨8, 9⟩)) ⟨8, 9⟩]
    rfl (by decide)
  exact h.1

namespace Backend

/-- A span decodes back from its encoding. -/
theorem decode_encode_span (s : SourceSpan) :
    decodeSpan (encodeSpan s) = .ok s := rfl

/-- A field reference decodes back from its encoding. -/
theorem decode_encode_fieldRef (f : FieldRefNode) :
    decodeFieldRef (encodeFieldRef f) = .ok f := by
  cases f with
  | mk kind name span =>
    by_cases hk : kind = "fieldRef" <;> cases span <;>
      simp [encodeFieldRef, decodeFieldRef, jfield, List.lookup, Except.bind, bind, pure, Except.pure, encodeSpan, hk,
        encodeSpanField, decodeOptSpan, decodeString, decodeSpan, decodeInt,
        Except.map]

/-- A logical operator decodes back from its encoding. -/
theorem decode_encode_logicalOperator (op : LogicalOperator) :
    decodeLogicalOperator (encodeLogicalOperator op) = .ok op := by
  cases op <;> rfl

mutual

/-- A value node decodes back from its encoding. -/
theorem decode_encode_value : ∀ v : QueryValueNode,
    decodeValue (encodeValue v) = .ok v
  | .stringLiteral s sp => by cases sp <;> rfl
  | .numberLiteral v raw sp => by cases sp <;> rfl
  | .booleanLiteral v sp => by cases sp <;> rfl
  | .list items sp => by
    have h := decode_encode_valueList items
    cases sp <;>
      simp [encodeValue, decodeValue, decodeItemsField, decodeValueArr,
        jfield, List.lookup, Except.bind, bind, pure, Except.pure, encodeSpan, decodeOptSpan, encodeSpanField, h, Except.map,
        decodeSpan, decodeInt]

/-- A list of value nodes decodes back from its encoding. -/
theorem decode_encode_valueList : ∀ vs : List QueryValueNode,
    decodeValueListJ (encodeValueList vs) = .ok vs
  | [] => rfl
  | v :: rest => by
    simp [encodeValueList, decodeValueListJ, decode_encode_value v,
      decode_encode_valueList rest]

end

/-- An AST node decodes back from its encoding. -/
theorem decode_encode_node : ∀ n : QueryAstNode,
    decodeNode (encodeNode n) = .ok n
  | .comparison field operator value sp => by
    have hf := decode_encode_fieldRef field
    have hv := decode_encode_value value
    cases sp <;>
      simp [encodeNode, decodeNode, jfield, List.lookup, Except.bind, bind, pure, Except.pure, encodeSpan, hf, hv,
        decodeOptSpan, encodeSpanField, decodeString, Except.map, decodeSpan,
        decodeInt]
  | .logical operator left right sp => by
    have hl := decode_encode_node left
    have hr := decode_encode_node right
    have ho := decode_encode_logicalOperator operator
    cases sp <;>
      simp [encodeNode, decodeNode, decodeNodeField, jfield, List.lookup, Except.bind, bind, pure, Except.pure, encodeSpan, ho,
        hl, hr, decodeOptSpan, encodeSpanField, Except.map, decodeSpan,
        decodeInt]
  | .not expression sp => by
    have he := decode_encode_node expression
    cases sp <;>
      simp [encodeNode, decodeNode, decodeNodeField, jfield, List.lookup, Except.bind, bind, pure, Except.pure, encodeSpan, he,
        decodeOptSpan, encodeSpanField, Except.map, decodeSpan, decodeInt]

/-- An envelope decodes back from its encoding. -/
theorem decode_encode_envelope (e : QueryAstEnvelope) :
    decodeEnvelope (encodeEnvelope e) = .ok e := by
  cases e with
  | mk astVersion grammarVersion source root metadata =>
    have hr := decode_encode_node root
    cases source with
    | mk rawQuery =>
      cases metadata with
      | none =>
        simp [encodeEnvelope, decodeEnvelope, jfield, List.lookup, Except.bind, bind, pure, Except.pure, encodeSpan, hr,
          decodeString, decodeMetadata, decodeInt]
      | some m =>
        cases m with
        | mk parser nodeCount maxDepth =>
          simp [encodeEnvelope, decodeEnvelope, jfield, List.lookup, Except.bind, bind, pure, Except.pure, encodeSpan, hr,
            decodeString, decodeMetadata, decodeInt, Except.map]

/-- C8: for every envelope, encoding it to the JSON wire format and decoding
the result yields the envelope back, field for field — every span, the
metadata and every value node included (the decoder rebuilds a structurally
equal tree). -/
theorem C8_envelope_round_trip (e : QueryAstEnvelope) :
    decodeEnvelope (encodeEnvelope e) = .ok e :=
  decode_encode_envelope e

end Backend

namespace Backend

/-- The scalar-value checks only ever emit `TYPE_MISMATCH` or
`INVALID_ENUM_VALUE`. -/
theorem validateScalarValue_codes (v : QueryValueNode) (f : FieldSpec) :
    ∀ d ∈ validateScalarValue v f,
      d.code = "TYPE_MISMATCH" ∨ d.code = "INVALID_ENUM_VALUE" := by
  intro d hd
  unfold validateScalarValue at hd
  rcases List.mem_append.mp hd with h | h
  · split at h <;> simp_all [errorForValue]
  · split at h <;> first
      | simp_all [errorForValue]
      | (split at h <;> simp_all [errorForValue])

end Backend

namespace Backend

/-- A code other than the two scalar-check codes never appears among the
scalar-value diagnostics. -/
theorem code_notin_scalar (c : String) (v : QueryValueNode)
    (f : FieldSpec) (h1 : ¬c = "TYPE_MISMATCH")
    (h2 : ¬c = "INVALID_ENUM_VALUE") :
    c ∉ (validateScalarValue v f).map QueryDiagnostic.code := by
  intro hmem
  rcases List.mem_map.mp hmem with ⟨d, hd, rfl⟩
  rcases validateScalarValue_codes v f d hd with h | h <;> simp_all

/-- A code other than the two scalar-check codes never appears among the
diagnostics of a list's items. -/
theorem code_notin_scalar_flatten (c : String)
    (items : List QueryValueNode) (f : FieldSpec)
    (h1 : ¬c = "TYPE_MISMATCH") (h2 : ¬c = "INVALID_ENUM_VALUE") :
    c ∉ (List.flatten (items.map
        (fun item => validateScalarValue item f))).map QueryDiagnostic.code := by
  intro hmem
  rcases List.mem_map.mp hmem with ⟨d, hd, rfl⟩
  rcases List.mem_flatten.mp hd with ⟨l, hl, hdl⟩
  rcases List.mem_map.mp hl with ⟨item, _, rfl⟩
  rcases validateScalarValue_codes item f d hdl with h | h <;> simp_all

/-- C4: for every comparison node whose field resolves in the spec, the
semantic validator emits `LIST_OPERATOR_MISMATCH` if and only if the value
is a list and the operator is not exactly `IN` or `NOT IN`; emits
`EMPTY_LIST` if and only if the value is a list with zero items; and emits
`SCALAR_OPERATOR_MISMATCH` if and only if the value is a scalar and the
operator is `IN` or `NOT IN`. -/
theorem C4_list_scalar_operator_checks (spec : QueryLanguageSpec)
    (field : FieldRefNode) (operator : String)
    (value : QueryValueNode) (span : Option SourceSpan)
    (fieldSpec : FieldSpec)
    (hfield : fieldsByName spec field.name = some fieldSpec) :
    (("LIST_OPERATOR_MISMATCH" ∈
        (validateComparison field operator value span spec).map
          QueryDiagnostic.code) ↔
      (value.isList = true ∧ ¬operator = "IN" ∧ ¬operator = "NOT IN")) ∧
    (("EMPTY_LIST" ∈
        (validateComparison field operator value span spec).map
          QueryDiagnostic.code) ↔
      (∃ sp, value = QueryValueNode.list [] sp)) ∧
    (("SCALAR_OPERATOR_MISMATCH" ∈
        (validateComparison field operator value span spec).map
          QueryDiagnostic.code) ↔
      (value.isList = false ∧ (operator = "IN" ∨ operator = "NOT IN"))) := by
  unfold validateComparison
  rw [hfield]
  by_cases hin : operator = "IN" <;> by_cases hnin : operator = "NOT IN" <;>
    refine ⟨?_, ?_, ?_⟩ <;> cases value <;>
    simp only [validateValueForField, QueryValueNode.isList, List.map_append,
      List.mem_append, comparisonError, hin, hnin] <;>
    (try subst hin) <;> (try subst hnin)
  all_goals
    simp_all [List.mem_map, code_notin_scalar_flatten, comparisonError]
  all_goals
    try
      intro x hx
      rcases validateScalarValue_codes _ _ x hx with h | h <;> simp_all
  all_goals
    try
      intro x hx y hy
      rcases validateScalarValue_codes _ _ y hy with h | h <;> simp_all
  all_goals
    constructor
    · rintro ((⟨a, ⟨h1, rfl⟩, hcode⟩) | (⟨a, ⟨hi, rfl⟩, hcode⟩) |
        ⟨a, ha, d, hd, hcode⟩)
      · simp at hcode
      · exact hi
      · rcases validateScalarValue_codes _ _ d hd with h | h <;> simp_all
    · intro hi
      right; left
      exact ⟨_, ⟨hi, rfl⟩, rfl⟩

/-- Witness for C4: for the `status` field (a declared string field), a
scalar comparison `status IN "Open"` reports exactly the scalar/operator
mismatch among the three codes. -/
theorem C4_witness :
    Backend.fieldsByName Backend.demoSpec "status" =
      some { name := "status", type := .STRING,
             enumValues := some ["Open", "Closed"] } ∧
    (("SCALAR_OPERATOR_MISMATCH" ∈
        (Backend.validateComparison { name := "status" } "IN"
            (.stringLiteral "Open" none) none Backend.demoSpec).map
          Backend.QueryDiagnostic.code) ↔
      ((Backend.QueryValueNode.stringLiteral "Open" none).isList = false ∧
        ("IN" = "IN" ∨ "IN" = "NOT IN"))) := by
  constructor
  · rfl
  · exact (C4_list_scalar_operator_checks Backend.demoSpec
      { name := "status" } "IN" (.stringLiteral "Open" none) none
      { name := "status", type := .STRING,
        enumValues := some ["Open", "Closed"] } (by rfl)).2.2

end Backend

namespace Backend

/-- C10: `compile` re-runs structural validation and then semantic
validation before lowering — a structural ERROR returns those diagnostics
with a null IR, a semantic failure returns the semantic diagnostics with a
null IR, and IR is produced exactly when both passes succeed in that same
call. -/
theorem C10_compile_revalidates (cfg : EngineConfig)
    (ast : QueryAstEnvelope) (spec : QueryLanguageSpec) :
    (hasError (validateStructure cfg ast) = true →
      compile cfg ast spec =
        { success := false, diagnostics := validateStructure cfg ast,
          ir := none }) ∧
    (hasError (validateStructure cfg ast) = false →
      (SemanticValidator.validate ast spec).valid = false →
      compile cfg ast spec =
        { success := false,
          diagnostics := (SemanticValidator.validate ast spec).diagnostics,
          ir := none }) ∧
    (hasError (validateStructure cfg ast) = false →
      (SemanticValidator.validate ast spec).valid = true →
      compile cfg ast spec =
        { success := true, diagnostics := [],
          ir := some (IrCompiler.compile ast.root) }) ∧
    ((compile cfg ast spec).ir ≠ none →
      hasError (validateStructure cfg ast) = false ∧
      (SemanticValidator.validate ast spec).valid = true) := by
  refine ⟨?_, ?_, ?_, ?_⟩ <;> unfold compile
  · intro h; simp [h]
  · intro h hv; simp [h, hv]
  · intro h hv; simp [h, hv]
  · intro h
    by_cases hs : hasError (validateStructure cfg ast)
    · simp [hs] at h
    · by_cases hv : (SemanticValidator.validate ast spec).valid
      · exact ⟨by simp [hs], hv⟩
      · simp [hs, hv] at h

/-- Witness for C10: the valid demo envelope compiles to its IR, and both
passes succeed on it. -/
theorem C10_witness :
    compile {} demoEnvelopeOk demoSpec =
      { success := true, diagnostics := [],
        ir := some (.irComparison "status" "=" (.irString "Open")) } ∧
    hasError (validateStructure {} demoEnvelopeOk) = false := by
  constructor
  · have h := (C10_compile_revalidates {} demoEnvelopeOk demoSpec).2.2.1
      (by rfl) (by rfl)
    exact h
  · rfl

end Backend

namespace Backend

/-- A list with no ERROR entry is exactly one where every entry's severity
differs from ERROR. -/
theorem hasError_eq_false_iff (l : List QueryDiagnostic) :
    hasError l = false ↔ ∀ d ∈ l, ¬d.severity = DiagnosticSeverity.ERROR := by
  simp [hasError, List.any_eq_false]

mutual

/-- The value walker only emits its own three codes. -/
theorem walkValue_codes (cfg : EngineConfig) (raw : Nat) :
    ∀ (v : QueryValueNode) (depth : Nat),
      ∀ d ∈ (walkValue cfg raw v depth).2,
        d.code = "AST_TOO_DEEP" ∨ d.code = "INVALID_SPAN" ∨
          d.code = "STRING_LITERAL_TOO_LARGE"
  | .stringLiteral v sp, depth => by
    intro d hd
    simp only [walkValue] at hd
    rcases List.mem_append.mp hd with h | h
    · rcases List.mem_append.mp h with h2 | h2
      · unfold validateDepth at h2
        split at h2 <;> simp_all [structureDiagnostic]
      · unfold validateSpan at h2
        split at h2
        · simp at h2
        · split at h2 <;> simp_all [structureDiagnostic]
    · split at h <;> simp_all [structureDiagnostic]
  | .numberLiteral v raw2 sp, depth => by
    intro d hd
    simp only [walkValue] at hd
    rcases List.mem_append.mp hd with h | h
    · unfold validateDepth at h
      split at h <;> simp_all [structureDiagnostic]
    · unfold validateSpan at h
      split at h
      · simp at h
      · split at h <;> simp_all [structureDiagnostic]
  | .booleanLiteral v sp, depth => by
    intro d hd
    simp only [walkValue] at hd
    rcases List.mem_append.mp hd with h | h
    · unfold validateDepth at h
      split at h <;> simp_all [structureDiagnostic]
    · unfold validateSpan at h
      split at h
      · simp at h
      · split at h <;> simp_all [structureDiagnostic]
  | .list items sp, depth => by
    intro d hd
    simp only [walkValue] at hd
    rcases List.mem_append.mp hd with h | h
    · rcases List.mem_append.mp h with h2 | h2
      · unfold validateDepth at h2
        split at h2 <;> simp_all [structureDiagnostic]
      · unfold validateSpan at h2
        split at h2
        · simp at h2
        · split at h2 <;> simp_all [structureDiagnostic]
    · exact walkValueList_codes cfg raw items (depth + 1) d h

/-- The value-list walker only emits the walker's three codes. -/
theorem walkValueList_codes (cfg : EngineConfig) (raw : Nat) :
    ∀ (items : List QueryValueNode) (depth : Nat),
      ∀ d ∈ (walkValueList cfg raw items depth).2,
        d.code = "AST_TOO_DEEP" ∨ d.code = "INVALID_SPAN" ∨
          d.code = "STRING_LITERAL_TOO_LARGE"
  | [], _ => by intro d hd; simp [walkValueList] at hd
  | v :: rest, depth => by
    intro d hd
    simp only [walkValueList] at hd
    rcases List.mem_append.mp hd with h | h
    · exact walkValue_codes cfg raw v depth d h
    · exact walkValueList_codes cfg raw rest depth d h

end

/-- The node walker only emits its own four codes. -/
theorem walkNode_codes (cfg : EngineConfig) (raw : Nat) :
    ∀ (n : QueryAstNode) (depth : Nat),
      ∀ d ∈ (walkNode cfg raw n depth).2,
        d.code = "AST_TOO_DEEP" ∨ d.code = "INVALID_SPAN" ∨
          d.code = "STRING_LITERAL_TOO_LARGE" ∨ d.code = "EMPTY_OPERATOR"
  | .comparison field operator value sp, depth => by
    intro d hd
    simp only [walkNode] at hd
    rcases List.mem_append.mp hd with h | h
    · rcases List.mem_append.mp h with h2 | h2
      · rcases List.mem_append.mp h2 with h3 | h3
        · rcases List.mem_append.mp h3 with h4 | h4
          · unfold validateDepth at h4
            split at h4 <;> simp_all [structureDiagnostic]
          · unfold validateSpan at h4
            split at h4
            · simp at h4
            · split at h4 <;> simp_all [structureDiagnostic]
        · unfold validateSpan at h3
          split at h3
          · simp at h3
          · split at h3 <;> simp_all [structureDiagnostic]
      · split at h2 <;> simp_all [structureDiagnostic]
    · rcases walkValue_codes cfg raw value (depth + 1) d h with h | h | h <;>
        simp [h]
  | .logical op left right sp, depth => by
    intro d hd
    simp only [walkNode] at hd
    rcases List.mem_append.mp hd with h | h
    · rcases List.mem_append.mp h with h2 | h2
      · rcases List.mem_append.mp h2 with h3 | h3
        · unfold validateDepth at h3
          split at h3 <;> simp_all [structureDiagnostic]
        · unfold validateSpan at h3
          split at h3
          · simp at h3
          · split at h3 <;> simp_all [structureDiagnostic]
      · exact walkNode_codes cfg raw left (depth + 1) d h2
    · exact walkNode_codes cfg raw right (depth + 1) d h
  | .not expression sp, depth => by
    intro d hd
    simp only [walkNode] at hd
    rcases List.mem_append.mp hd with h | h
    · rcases List.mem_append.mp h with h2 | h2
      · unfold validateDepth at h2
        split at h2 <;> simp_all [structureDiagnostic]
      · unfold validateSpan at h2
        split at h2
        · simp at h2
        · split at h2 <;> simp_all [structureDiagnostic]
    · exact walkNode_codes cfg raw expression (depth + 1) d h

/-- The whole walker only emits its own five codes. -/
theorem walkerValidate_codes (cfg : EngineConfig) (root : QueryAstNode)
    (raw : Nat) :
    ∀ d ∈ walkerValidate cfg root raw,
      d.code = "AST_TOO_DEEP" ∨ d.code = "INVALID_SPAN" ∨
        d.code = "STRING_LITERAL_TOO_LARGE" ∨ d.code = "EMPTY_OPERATOR" ∨
        d.code = "AST_TOO_LARGE" := by
  intro d hd
  unfold walkerValidate at hd
  rcases List.mem_append.mp hd with h | h
  · rcases walkNode_codes cfg raw root 1 d h with h | h | h | h <;> simp [h]
  · split at h <;> simp_all [structureDiagnostic]

end Backend

namespace Backend

/-- The walker never emits the engine-level header codes. -/
theorem walker_no_header_code (cfg : EngineConfig) (root : QueryAstNode)
    (raw : Nat) (c : String) (h1 : ¬c = "AST_TOO_DEEP")
    (h2 : ¬c = "INVALID_SPAN") (h3 : ¬c = "STRING_LITERAL_TOO_LARGE")
    (h4 : ¬c = "EMPTY_OPERATOR") (h5 : ¬c = "AST_TOO_LARGE") :
    c ∉ (walkerValidate cfg root raw).map QueryDiagnostic.code := by
  intro hmem
  rcases List.mem_map.mp hmem with ⟨d, hd, hc⟩
  rcases walkerValidate_codes cfg root raw d hd with h | h | h | h | h <;>
    simp_all

/-- C6: the structural validator runs all of its checks on every envelope
without short-circuiting — each bound's diagnostic appears exactly when its
own condition is violated, independently of the others — and the decoded
result is valid if and only if no ERROR-severity diagnostic was produced. -/
theorem C6_validator_accumulates (cfg : EngineConfig)
    (envelope : QueryAstEnvelope) :
    ((decodeAndValidateEnvelope cfg (encodeEnvelope envelope)).valid = true ↔
      ∀ d ∈ validateStructure cfg envelope,
        ¬d.severity = DiagnosticSeverity.ERROR) ∧
    (("UNSUPPORTED_AST_VERSION" ∈
        (validateStructure cfg envelope).map QueryDiagnostic.code) ↔
      envelope.astVersion ∉ cfg.supportedAstVersions) ∧
    (("MISSING_GRAMMAR_VERSION" ∈
        (validateStructure cfg envelope).map QueryDiagnostic.code) ↔
      isBlank envelope.grammarVersion = true) ∧
    (("RAW_QUERY_TOO_LARGE" ∈
        (validateStructure cfg envelope).map QueryDiagnostic.code) ↔
      envelope.source.rawQuery.length > cfg.maxRawQueryLength) := by
  have hu := walker_no_header_code cfg envelope.root
    envelope.source.rawQuery.length "UNSUPPORTED_AST_VERSION"
    (by decide) (by decide) (by decide) (by decide) (by decide)
  have hg := walker_no_header_code cfg envelope.root
    envelope.source.rawQuery.length "MISSING_GRAMMAR_VERSION"
    (by decide) (by decide) (by decide) (by decide) (by decide)
  have hr := walker_no_header_code cfg envelope.root
    envelope.source.rawQuery.length "RAW_QUERY_TOO_LARGE"
    (by decide) (by decide) (by decide) (by decide) (by decide)
  refine ⟨?_, ?_, ?_, ?_⟩
  · unfold decodeAndValidateEnvelope
    rw [decode_encode_envelope]
    simp [hasError_eq_false_iff]
  all_goals
    unfold validateStructure
    cases hm : envelope.metadata <;> split_ifs <;>
      simp_all [List.mem_append, structureDiagnostic, and_assoc,
        exists_and_left, exists_eq_left]
  all_goals
    constructor
    · intro hcond
      first
        | (rcases hcond with ⟨a, ha, hc⟩
           first
             | exact absurd hc (hu a ha)
             | exact absurd hc (hg a ha)
             | exact absurd hc (hr a ha))
        | (rcases hcond with ⟨a, ⟨hx, rfl⟩, hc⟩ | ⟨a, ⟨hx, rfl⟩, hc⟩ <;>
            simp_all)
    · intro hcond
      first
        | omega
        | exact absurd hcond (by assumption)
        | simp_all

/-- Witness for C6: an envelope with an unsupported `astVersion` and a blank
`grammarVersion` reports both codes in one pass. -/
theorem C6_witness :
    ("UNSUPPORTED_AST_VERSION" ∈
      (validateStructure {} demoEnvelopeTwoViolations).map
        QueryDiagnostic.code) ∧
    ("MISSING_GRAMMAR_VERSION" ∈
      (validateStructure {} demoEnvelopeTwoViolations).map
        QueryDiagnostic.code) := by
  constructor
  · exact (C6_validator_accumulates {} demoEnvelopeTwoViolations).2.1.mpr
      (by decide)
  · exact (C6_validator_accumulates {} demoEnvelopeTwoViolations).2.2.1.mpr
      (by decide)

end Backend

namespace Frontend

/-- `analyzeQuery` either reports no diagnostics or discards the AST. -/
theorem analyzeQuery_diagnostics_or_null (parse : String → SNode)
    (input : String) (options : AnalyzeQueryOptions) :
    (analyzeQuery parse input options).syntaxDiagnostics = [] ∨
      (analyzeQuery parse input options).ast = none := by
  simp only [analyzeQuery]
  split
  · right; rfl
  · split
    · rename_i e _
      cases e <;> (right; rfl)
    · split
      · rename_i e _
        cases e <;> (right; rfl)
      · left; rfl

end Frontend

/-- C3 counterexample: `decodeAndValidateEnvelope` on a successfully decoded
envelope with an unsupported `astVersion` returns an ERROR diagnostic AND
the (non-null) decoded envelope, so the claim that every ERROR implies a
null output is false for this operation. -/
theorem C3_counterexample :
    Backend.hasError (Backend.decodeAndValidateEnvelope {}
        (Backend.encodeEnvelope Backend.demoEnvelopeBadVersion)).diagnostics
        = true ∧
    (Backend.decodeAndValidateEnvelope {}
        (Backend.encodeEnvelope Backend.demoEnvelopeBadVersion)).envelope =
      some Backend.demoEnvelopeBadVersion := ⟨rfl, rfl⟩

/-- C3 (amended): `analyzeQuery` and `compile` discard their outputs (a null
AST, a null IR) whenever any ERROR diagnostic is returned;
`decodeAndValidateEnvelope` returns a null envelope exactly when JSON
decoding itself fails — when decoding succeeds but structural validation
produces ERROR diagnostics, the decoded envelope is returned alongside them
(with `valid = false`). -/
theorem C3_error_discards_output (parse : String → Frontend.SNode)
    (input : String) (options : Frontend.AnalyzeQueryOptions)
    (cfg : Backend.EngineConfig) (ast : Backend.QueryAstEnvelope)
    (spec : Backend.QueryLanguageSpec) (j : Backend.Json) :
    ((∃ d ∈ (Frontend.analyzeQuery parse input options).syntaxDiagnostics,
        d.severity = Frontend.Severity.error) →
      (Frontend.analyzeQuery parse input options).ast = none) ∧
    (Backend.hasError (Backend.compile cfg ast spec).diagnostics = true →
      (Backend.compile cfg ast spec).ir = none) ∧
    (∀ msg, Backend.decodeEnvelope j = .error msg →
      (Backend.decodeAndValidateEnvelope cfg j).envelope = none) ∧
    (∀ envelope, Backend.decodeEnvelope j = .ok envelope →
      (Backend.decodeAndValidateEnvelope cfg j).envelope = some envelope) := by
  refine ⟨?_, ?_, ?_, ?_⟩
  · rintro ⟨d, hd, _⟩
    rcases Frontend.analyzeQuery_diagnostics_or_null parse input options with
      h | h
    · rw [h] at hd
      simp at hd
    · exact h
  · intro h
    simp only [Backend.compile] at h ⊢
    split_ifs at h ⊢ <;> simp_all [Backend.hasError]
  · intro msg hmsg
    unfold Backend.decodeAndValidateEnvelope
    rw [hmsg]
  · intro envelope henv
    unfold Backend.decodeAndValidateEnvelope
    rw [henv]

/-- Witness for C3: on the valid demo envelope, `compile` succeeds and the
implications of the amended claim hold at a concrete input. -/
theorem C3_witness :
    (Backend.decodeAndValidateEnvelope {}
        (Backend.encodeEnvelope Backend.demoEnvelopeOk)).envelope =
      some Backend.demoEnvelopeOk := by
  have h := (C3_error_discards_output Frontend.demoParse "" Frontend.demoOptsIsOpen
    {} Backend.demoEnvelopeOk Backend.demoSpec
    (Backend.encodeEnvelope Backend.demoEnvelopeOk)).2.2.2
  exact h Backend.demoEnvelopeOk (Backend.decode_encode_envelope _)

/-- C5: a parsed comparison with a field reference but no comparison and no
IN/NOT-IN operator builds to `field = true` when the field is declared
boolean in the spec, and aborts the build with
`INVALID_BOOLEAN_FIELD_SHORTHAND` in every other case (field not declared,
or declared with a non-boolean type). -/
theorem C5_boolean_shorthand (node fieldNode idNode : Frontend.SNode)
    (input : String) (context : Frontend.AstBuildContext)
    (hname : node.name = "Comparison")
    (hcmp : node.getChild "CompareOperator" = none)
    (hin : node.getChild "InOperator" = none)
    (hfield : node.getChild "Field" = some fieldNode)
    (hid : fieldNode.getChild "Identifier" = some idNode) :
    (∀ fieldSpec,
      context.languageSpec.fields.find?
          (fun f => f.name = Frontend.textOf idNode input) = some fieldSpec →
      fieldSpec.type = .boolean →
      Frontend.buildExpression node input context =
        .ok (.comparison
          { name := Frontend.textOf idNode input,
            span := Frontend.spanOf fieldNode } "="
          (.lit (.booleanLiteral true (Frontend.spanOf fieldNode)))
          (Frontend.spanOf node))) ∧
    ((∀ fieldSpec,
        context.languageSpec.fields.find?
            (fun f => f.name = Frontend.textOf idNode input) = some fieldSpec →
        ¬fieldSpec.type = .boolean) →
      Frontend.buildExpression node input context =
        .error (Frontend.shorthandError (Frontend.textOf idNode input)
          fieldNode)) := by
  have hbe : Frontend.buildExpression node input context =
      Frontend.buildComparison node input context := by
    unfold Frontend.buildExpression
    cases node with
    | mk nm a b e cs =>
      simp only [Frontend.SNode.name] at hname
      subst hname
      simp only [Frontend.buildExpressionL]
  rw [hbe]
  simp only [Frontend.buildComparison, Frontend.expectChild, hfield, hid,
    hcmp, hin, bind, Except.bind, Frontend.textOf]
  constructor
  · intro fieldSpec hfind htype
    simp [hfind, htype]
  · intro hall
    cases hfind : context.languageSpec.fields.find?
        (fun f => f.name = (input.take idNode.toPos).drop idNode.fromPos) with
    | none => simp [hfind]
    | some fieldSpec =>
      have hne := hall fieldSpec hfind
      simp [hfind, hne]

/-- Witness for C5: the bare reference `archived` (a declared boolean field)
builds to `archived = true`, and the bare reference `status` (a declared
string field) aborts with `INVALID_BOOLEAN_FIELD_SHORTHAND`. -/
theorem C5_witness :
    Frontend.buildExpression Frontend.bareFieldComparisonCST "archived"
        Frontend.demoCtxBool =
      .ok (.comparison { name := "archived", span := ⟨0, 8⟩ } "="
        (.lit (.booleanLiteral true ⟨0, 8⟩)) ⟨0, 8⟩) ∧
    Frontend.buildExpression Frontend.bareStatusComparisonCST "status"
        Frontend.demoCtxBool =
      .error (Frontend.shorthandError "status"
        (Frontend.wrapNode "Field" 0 6 [Frontend.leafNode "Identifier" 0 6])) := by
  constructor
  · exact (C5_boolean_shorthand Frontend.bareFieldComparisonCST
      (Frontend.wrapNode "Field" 0 8 [Frontend.leafNode "Identifier" 0 8])
      (Frontend.leafNode "Identifier" 0 8) "archived" Frontend.demoCtxBool
      rfl rfl rfl rfl rfl).1
      { name := "archived", type := .boolean } rfl rfl
  · refine (C5_boolean_shorthand Frontend.bareStatusComparisonCST
      (Frontend.wrapNode "Field" 0 6 [Frontend.leafNode "Identifier" 0 6])
      (Frontend.leafNode "Identifier" 0 6) "status" Frontend.demoCtxBool
      rfl rfl rfl rfl rfl).2 ?_
    intro fieldSpec hfs
    rw [show Frontend.demoCtxBool.languageSpec.fields.find?
        (fun f => f.name = Frontend.textOf (Frontend.leafNode "Identifier" 0 6)
          "status") =
        some { name := "status", type := .string } from rfl] at hfs
    cases hfs
    decide

/-- Every span `remapValueSpans` writes — the list span and every list item
span — is the target span. -/
theorem spansEq_remapValueSpans (value : Frontend.ValueNode)
    (span : Frontend.SourceSpan) :
    Frontend.spansEqValue span (Frontend.remapValueSpans value span) = true := by
  cases value with
  | lit l =>
    cases l <;>
      simp [Frontend.remapValueSpans, Frontend.spansEqValue,
        Frontend.spansEqLiteral]
  | list items s =>
    simp only [Frontend.remapValueSpans, Frontend.spansEqValue,
      Bool.and_eq_true, beq_self_eq_true, true_and, List.all_eq_true]
    intro item hitem
    rcases List.mem_map.mp hitem with ⟨orig, _, rfl⟩
    cases orig <;> simp [Frontend.spansEqLiteral]

/-- Every span `remapQueryAstSpans` writes — node spans, field-ref spans and
value spans, recursively — is the target span. -/
theorem spansEq_remapQueryAstSpans (node : Frontend.QueryAstNode)
    (span : Frontend.SourceSpan) :
    Frontend.spansEqNode span (Frontend.remapQueryAstSpans node span) =
      true := by
  induction node with
  | comparison field operator value s =>
    simp [Frontend.remapQueryAstSpans, Frontend.spansEqNode,
      spansEq_remapValueSpans]
  | logical operator left right s ihl ihr =>
    simp [Frontend.remapQueryAstSpans, Frontend.spansEqNode, ihl, ihr]
  | not expression s ih =>
    simp [Frontend.remapQueryAstSpans, Frontend.spansEqNode, ih]

/-- C1: whenever a macro call expands successfully, every span in the
expanded subtree — comparison/logical/not node spans, field-ref spans, value
spans and, recursively, every list item span — equals the macro call node's
own span; and in particular for input `isOpen()` with the alias
`isOpen = status = "Open"`, the analysis yields a comparison whose span,
field span and value span are all `{from := 0, to := 8}`. -/
theorem C1_macro_span_remap :
    (∀ (fuel : Nat) (node : Frontend.SNode) (input : String)
        (context : Frontend.AstBuildContext) (ast : Frontend.QueryAstNode),
      Frontend.expandMacroAliasF fuel node input context = .ok ast →
      Frontend.spansEqNode (Frontend.spanOf node) ast = true) ∧
    (Frontend.analyzeQuery Frontend.demoParse "isOpen()"
        Frontend.demoOptsIsOpen).ast =
      some { astVersion := "1", grammarVersion := "1", rawQuery := "isOpen()",
             root := .comparison { name := "status", span := ⟨0, 8⟩ } "="
               (.lit (.stringLiteral "Open" ⟨0, 8⟩)) ⟨0, 8⟩,
             metadata := some { parser := "lezer", nodeCount := 2,
                                maxDepth := 2 } } := by
  constructor
  · intro fuel node input context ast h
    cases fuel with
    | zero => simp [Frontend.expandMacroAliasF] at h
    | succ fuel =>
      simp only [Frontend.expandMacroAliasF] at h
      split at h
      · exact absurd h (by simp)
      · split at h
        · cases h
          exact spansEq_remapQueryAstSpans _ _
        · exact absurd h (by simp)
  · rfl

/-- Witness for C1: the theorem's universal part applied to the concrete
expansion of `isOpen()` over the demo context. -/
theorem C1_witness :
    Frontend.spansEqNode (Frontend.spanOf (Frontend.macroCallInner "isOpen"))
      (.comparison { name := "status", span := ⟨0, 8⟩ } "="
        (.lit (.stringLiteral "Open" ⟨0, 8⟩)) ⟨0, 8⟩) = true :=
  C1_macro_span_remap.1 12 (Frontend.macroCallInner "isOpen") "isOpen()"
    Frontend.demoCtxIsOpen
    (.comparison { name := "status", span := ⟨0, 8⟩ } "="
      (.lit (.stringLiteral "Open" ⟨0, 8⟩)) ⟨0, 8⟩) rfl

namespace Frontend

theorem expectChild_no_fuel (node : SNode) (nm : String) :
    expectChild node nm ≠ .error .fuelExhausted := by
  intro h
  simp only [expectChild] at h
  split at h <;> simp_all

theorem buildScalarValue_no_fuel (node : SNode) (input : String) :
    buildScalarValue node input ≠ .error .fuelExhausted := by
  intro h
  simp only [buildScalarValue] at h
  repeat' split at h
  all_goals simp_all

theorem listItemScalar_no_fuel (input : String) (item : SNode) :
    (do
      let scalar ← expectChild item "ScalarValue"
      buildScalarValue scalar input :
      Except BuildError LiteralNode) ≠ .error .fuelExhausted := by
  intro h
  simp only [bind, Except.bind] at h
  split at h
  · rename_i e heq
    injection h with h
    subst h
    exact expectChild_no_fuel _ _ heq
  · exact buildScalarValue_no_fuel _ _ h

theorem except_mapM_loop_no_fuel {α β : Type} (f : α → Except BuildError β)
    (hf : ∀ a, f a ≠ .error .fuelExhausted) :
    ∀ (l : List α) (acc : List β),
      List.mapM.loop f l acc ≠ .error .fuelExhausted := by
  intro l
  induction l with
  | nil => intro acc h; simp [List.mapM.loop, pure, Except.pure] at h
  | cons a rest ih =>
    intro acc h
    simp only [List.mapM.loop, bind, Except.bind] at h
    split at h
    · rename_i e heq
      try injection h with h
      subst h
      exact hf a heq
    · exact ih _ h

theorem except_mapM_no_fuel {α β : Type} (f : α → Except BuildError β)
    (hf : ∀ a, f a ≠ .error .fuelExhausted) :
    ∀ l : List α, l.mapM f ≠ .error .fuelExhausted := fun l =>
  except_mapM_loop_no_fuel f hf l []

theorem buildListValue_no_fuel (node : SNode) (input : String) :
    buildListValue node input ≠ .error .fuelExhausted := by
  intro h
  simp only [buildListValue] at h
  split at h
  · simp at h
  · rename_i e heq
    injection h with h
    subst h
    exact except_mapM_no_fuel _ (listItemScalar_no_fuel input) _ heq

theorem foldLogical_no_fuel (node : SNode) (terms : List QueryAstNode)
    (operator : LogicalOperator) :
    foldLogical node terms operator ≠ .error .fuelExhausted := by
  intro h
  simp only [foldLogical] at h
  split at h <;> simp_all

theorem buildComparison_no_fuel (node : SNode) (input : String)
    (context : AstBuildContext) :
    buildComparison node input context ≠ .error .fuelExhausted := by
  intro h
  simp only [buildComparison, bind, Except.bind] at h
  repeat' split at h
  all_goals
    simp_all [expectChild_no_fuel, buildScalarValue_no_fuel,
      buildListValue_no_fuel, shorthandError]

theorem macroAliasGuards_no_fuel (node : SNode) (input : String)
    (context : AstBuildContext) :
    macroAliasGuards node input context ≠ .error .fuelExhausted := by
  intro h
  simp only [macroAliasGuards, bind, Except.bind] at h
  repeat' split at h
  all_goals simp_all [expectChild_no_fuel]

theorem macroAliasGuards_depth (node : SNode) (input : String)
    (context : AstBuildContext) (x : String × MacroAliasSpec × SNode)
    (h : macroAliasGuards node input context = .ok x) :
    context.macroDepth < MAX_MACRO_EXPANSION_DEPTH := by
  simp only [macroAliasGuards, bind, Except.bind] at h
  repeat' split at h
  all_goals simp_all

mutual

theorem buildAstL_no_fuel (cb : SNode → Except BuildError QueryAstNode)
    (hcb : ∀ n, cb n ≠ .error .fuelExhausted) (input : String)
    (context : AstBuildContext) :
    ∀ t, buildAstFromQueryL cb input context t ≠ .error .fuelExhausted
  | .mk nm a b err [] => by
    intro h
    simp only [buildAstFromQueryL] at h
    split at h
    · exact buildChildNamed_no_fuel cb hcb input context "Expression" nm [] h
    · simp at h
  | .mk nm a b err (first :: rest) => by
    intro h
    simp only [buildAstFromQueryL] at h
    split at h
    · exact buildChildNamed_no_fuel cb hcb input context "Expression" nm
        (first :: rest) h
    · exact buildExpressionL_no_fuel cb hcb input context first h

theorem buildExpressionL_no_fuel
    (cb : SNode → Except BuildError QueryAstNode)
    (hcb : ∀ n, cb n ≠ .error .fuelExhausted) (input : String)
    (context : AstBuildContext) :
    ∀ t, buildExpressionL cb input context t ≠ .error .fuelExhausted
  | .mk nm a b err cs => by
    intro h
    simp only [buildExpressionL] at h
    split at h
    · exact buildChildNamed_no_fuel cb hcb input context "OrExpression"
        "Expression" cs h
    · split at h
      · exact foldLogical_no_fuel _ _ _ h
      · rename_i e heq
        try injection h with h
        subst h
        exact buildChildrenNamed_no_fuel cb hcb input context "AndExpression"
          cs heq
    · split at h
      · exact foldLogical_no_fuel _ _ _ h
      · rename_i e heq
        try injection h with h
        subst h
        exact buildChildrenNamed_no_fuel cb hcb input context "NotExpression"
          cs heq
    · split at h
      · split at h
        · simp at h
        · rename_i e heq
          try injection h with h
          subst h
          exact buildChildNamed_no_fuel cb hcb input context "Primary"
            "NotExpression" cs heq
      · exact buildChildNamed_no_fuel cb hcb input context "Primary"
          "NotExpression" cs h
    · split at h
      · exact buildChildNamed_no_fuel cb hcb input context "Comparison"
          "Primary" cs h
      · split at h
        · exact buildChildNamed_no_fuel cb hcb input context "MacroCall"
            "Primary" cs h
        · exact buildGroupChild_no_fuel cb hcb input context cs h
    · exact hcb _ h
    · exact buildComparison_no_fuel _ _ _ h
    · simp [unsupportedNodeError] at h

theorem buildChildNamed_no_fuel
    (cb : SNode → Except BuildError QueryAstNode)
    (hcb : ∀ n, cb n ≠ .error .fuelExhausted) (input : String)
    (context : AstBuildContext) (target parentName : String) :
    ∀ cs, buildChildNamed cb input context target parentName cs ≠
      .error .fuelExhausted
  | [] => by
    intro h
    simp [buildChildNamed] at h
  | c :: rest => by
    intro h
    simp only [buildChildNamed] at h
    split at h
    · exact buildExpressionL_no_fuel cb hcb input context c h
    · exact buildChildNamed_no_fuel cb hcb input context target parentName
        rest h

theorem buildChildrenNamed_no_fuel
    (cb : SNode → Except BuildError QueryAstNode)
    (hcb : ∀ n, cb n ≠ .error .fuelExhausted) (input : String)
    (context : AstBuildContext) (target : String) :
    ∀ cs, buildChildrenNamed cb input context target cs ≠
      .error .fuelExhausted
  | [] => by
    intro h
    simp [buildChildrenNamed] at h
  | c :: rest => by
    intro h
    simp only [buildChildrenNamed] at h
    split at h
    · split at h
      · split at h
        · simp at h
        · rename_i e heq
          try injection h with h
          subst h
          exact buildChildrenNamed_no_fuel cb hcb input context target rest heq
      · rename_i e heq
        try injection h with h
        subst h
        exact buildExpressionL_no_fuel cb hcb input context c heq
    · exact buildChildrenNamed_no_fuel cb hcb input context target rest h

theorem buildGroupChild_no_fuel
    (cb : SNode → Except BuildError QueryAstNode)
    (hcb : ∀ n, cb n ≠ .error .fuelExhausted) (input : String)
    (context : AstBuildContext) :
    ∀ cs, buildGroupChild cb input context cs ≠ .error .fuelExhausted
  | [] => by
    intro h
    simp [buildGroupChild] at h
  | (SNode.mk gnm ga gb gerr gcs) :: rest => by
    intro h
    simp only [buildGroupChild] at h
    split at h
    · exact buildChildNamed_no_fuel cb hcb input context "Expression" gnm gcs h
    · exact buildGroupChild_no_fuel cb hcb input context rest h

end

end Frontend

namespace Frontend

/-- The success-path wrapping of one macro expansion step: remap the spans of
the built subtree onto the call site, propagate errors. -/
def expandStep (node : SNode) (r : Except BuildError QueryAstNode) :
    Except BuildError QueryAstNode :=
  match r with
  | .ok expanded => .ok (remapQueryAstSpans expanded (spanOf node))
  | .error e => .error e

/-- One-step unfolding of `expandMacroAliasF` when the guards fail. -/
theorem expandMacroAliasF_succ_error (fuel : Nat) (node : SNode)
    (input : String) (context : AstBuildContext) (e : BuildError)
    (hg : macroAliasGuards node input context = .error e) :
    expandMacroAliasF (fuel + 1) node input context = .error e := by
  simp only [expandMacroAliasF, hg]

/-- One-step unfolding of `expandMacroAliasF` when the guards pass. -/
theorem expandMacroAliasF_succ_ok (fuel : Nat) (node : SNode) (input : String)
    (context : AstBuildContext) (name : String) (aliasSpec : MacroAliasSpec)
    (tree : SNode) (ctx2 : AstBuildContext)
    (hg : macroAliasGuards node input context = .ok (name, aliasSpec, tree)) :
    ctx2 = { context with macroStack := context.macroStack ++ [name],
                          macroDepth := context.macroDepth + 1 } →
    expandMacroAliasF (fuel + 1) node input context =
      expandStep node
        (buildAstFromQueryL
          (fun n => expandMacroAliasF fuel n aliasSpec.expansion ctx2)
          aliasSpec.expansion ctx2 tree) := by
  intro hctx
  subst hctx
  simp only [expandMacroAliasF, hg]
  rfl

/-- Any fuel with at least the depth headroom the API supplies computes the
same, fuel-marker-free result: the source recursion terminates within the
depth ceiling without relying on a host call-stack limit. -/
theorem expandStable :
    ∀ (f g : Nat) (node : SNode) (input : String)
      (context : AstBuildContext),
      context.macroDepth ≤ MAX_MACRO_EXPANSION_DEPTH →
      MAX_MACRO_EXPANSION_DEPTH + 2 ≤ context.macroDepth + f →
      f ≤ g →
      expandMacroAliasF f node input context =
        expandMacroAliasF g node input context ∧
      expandMacroAliasF f node input context ≠ .error .fuelExhausted := by
  intro f
  induction f with
  | zero => intro g node input context hd hf hfg; omega
  | succ f ih =>
    intro g node input context hd hf hfg
    cases g with
    | zero => omega
    | succ g =>
      cases hg : macroAliasGuards node input context with
      | error e =>
        rw [expandMacroAliasF_succ_error f node input context e hg,
          expandMacroAliasF_succ_error g node input context e hg]
        have hne := macroAliasGuards_no_fuel node input context
        rw [hg] at hne
        have hne2 : e ≠ .fuelExhausted := by
          intro hh
          subst hh
          exact hne rfl
        refine ⟨rfl, ?_⟩
        intro hcontra
        injection hcontra with hcontra
        exact hne2 hcontra
      | ok x =>
        obtain ⟨name, aliasSpec, tree⟩ := x
        have hlt := macroAliasGuards_depth node input context _ hg
        have hfg' : f ≤ g := by omega
        rw [expandMacroAliasF_succ_ok f node input context name aliasSpec tree
            _ hg rfl,
          expandMacroAliasF_succ_ok g node input context name aliasSpec tree
            _ hg rfl]
        have key := fun n => ih g n aliasSpec.expansion
          { context with macroStack := context.macroStack ++ [name],
                         macroDepth := context.macroDepth + 1 }
          (by
            show context.macroDepth + 1 ≤ MAX_MACRO_EXPANSION_DEPTH
            omega)
          (by
            show MAX_MACRO_EXPANSION_DEPTH + 2 ≤ context.macroDepth + 1 + f
            omega)
          hfg'
        have hfx : (fun n => expandMacroAliasF f n aliasSpec.expansion
              { context with macroStack := context.macroStack ++ [name],
                             macroDepth := context.macroDepth + 1 }) =
            (fun n => expandMacroAliasF g n aliasSpec.expansion
              { context with macroStack := context.macroStack ++ [name],
                             macroDepth := context.macroDepth + 1 }) :=
          funext (fun n => (key n).1)
        have hnf : ∀ n, expandMacroAliasF g n aliasSpec.expansion
              { context with macroStack := context.macroStack ++ [name],
                             macroDepth := context.macroDepth + 1 } ≠
            .error .fuelExhausted :=
          fun n => (key n).1 ▸ (key n).2
        rw [hfx]
        refine ⟨rfl, ?_⟩
        intro hcontra
        have hpure := buildAstL_no_fuel _ hnf aliasSpec.expansion
          { context with macroStack := context.macroStack ++ [name],
                         macroDepth := context.macroDepth + 1 } tree
        cases hb : buildAstFromQueryL
            (fun n => expandMacroAliasF g n aliasSpec.expansion
              { context with macroStack := context.macroStack ++ [name],
                             macroDepth := context.macroDepth + 1 })
            aliasSpec.expansion
            { context with macroStack := context.macroStack ++ [name],
                           macroDepth := context.macroDepth + 1 } tree with
        | ok expanded =>
          rw [hb] at hcontra
          simp [expandStep] at hcontra
        | error e =>
          rw [hb] at hcontra
          simp only [expandStep] at hcontra
          injection hcontra with hcontra
          subst hcontra
          exact hpure hb

end Frontend

namespace Frontend

/-- The cycle guard: an alias name already on the in-progress stack fails
with `MACRO_EXPANSION_CYCLE` before recursing. -/
theorem macroAliasGuards_cycle (node : SNode) (input : String)
    (context : AstBuildContext) (identifier : SNode)
    (aliasSpec : MacroAliasSpec)
    (h1 : expectChild node "Identifier" = .ok identifier)
    (h2 : context.macroAliases.lookup (textOf identifier input) =
      some aliasSpec)
    (h3 : context.macroStack.contains (textOf identifier input) = true) :
    macroAliasGuards node input context =
      .error (.diag "MACRO_EXPANSION_CYCLE"
        ("Macro alias cycle detected: " ++ String.intercalate " -> "
          (context.macroStack ++ [textOf identifier input]))
        (spanOf node)) := by
  simp only [macroAliasGuards, bind, Except.bind, h1, h2, h3, if_true]

/-- The depth guard: at depth ≥ the fixed ceiling the expansion fails with
`MACRO_EXPANSION_DEPTH_EXCEEDED` before recursing. -/
theorem macroAliasGuards_depth_exceeded (node : SNode) (input : String)
    (context : AstBuildContext) (identifier : SNode)
    (aliasSpec : MacroAliasSpec)
    (h1 : expectChild node "Identifier" = .ok identifier)
    (h2 : context.macroAliases.lookup (textOf identifier input) =
      some aliasSpec)
    (h3 : context.macroStack.contains (textOf identifier input) = false)
    (h4 : MAX_MACRO_EXPANSION_DEPTH ≤ context.macroDepth) :
    macroAliasGuards node input context =
      .error (.diag "MACRO_EXPANSION_DEPTH_EXCEEDED"
        ("Macro alias expansion depth exceeded (" ++
          toString MAX_MACRO_EXPANSION_DEPTH ++ ")")
        (spanOf node)) := by
  simp only [macroAliasGuards, bind, Except.bind, h1, h2, h3, h4,
    Bool.false_eq_true, if_false, if_true]

end Frontend

namespace Frontend

/-- Building the parse tree of a macro call `nm()` reduces to the macro
expansion continuation on the `MacroCall` node. -/
theorem buildAst_macroCallCST (cb : SNode → Except BuildError QueryAstNode)
    (input : String) (context : AstBuildContext) (nm : String)
    (r : Except BuildError QueryAstNode) (h : cb (macroCallInner nm) = r) :
    buildAstFromQueryL cb input context (macroCallCST nm) = r := by
  cases r with
  | ok e =>
    simp only [macroCallCST, exprChainCST, wrapNode, leafNode, macroCallInner,
      buildAstFromQueryL, buildExpressionL, buildChildNamed,
      buildChildrenNamed, SNode.getChild, SNode.children, SNode.name,
      List.find?, foldLogical, List.foldl] at h ⊢
    simp [h]
  | error e =>
    simp only [macroCallCST, exprChainCST, wrapNode, leafNode, macroCallInner,
      buildAstFromQueryL, buildExpressionL, buildChildNamed,
      buildChildrenNamed, SNode.getChild, SNode.children, SNode.name,
      List.find?, foldLogical, List.foldl] at h ⊢
    simp [h]

end Frontend

namespace Frontend

/-- The depth guard fires at the call of `m11`, the eleventh in-progress
expansion. -/
theorem chainBase :
    expandMacroAliasF 2 (macroCallInner "m11") "m11()"
      (chainCtx ["m1", "m2", "m3", "m4", "m5", "m6", "m7", "m8", "m9", "m10"] 10) = .error chainDepthError := by
  rw [show (2 : Nat) = 1 + 1 from rfl]
  exact expandMacroAliasF_succ_error 1 _ _ _ _ rfl

/-- Chain step 10: the error of expanding `m11()` propagates through the
expansion of `m10()`. -/
theorem chainStep10 (e : BuildError)
    (h : expandMacroAliasF 2 (macroCallInner "m11") "m11()"
      (chainCtx ["m1", "m2", "m3", "m4", "m5", "m6", "m7", "m8", "m9", "m10"] 10) = .error e) :
    expandMacroAliasF 3 (macroCallInner "m10") "m10()"
      (chainCtx ["m1", "m2", "m3", "m4", "m5", "m6", "m7", "m8", "m9"] 9) = .error e := by
  rw [show (3 : Nat) = 2 + 1 from rfl]
  rw [expandMacroAliasF_succ_ok 2 (macroCallInner "m10") "m10()"
    (chainCtx ["m1", "m2", "m3", "m4", "m5", "m6", "m7", "m8", "m9"] 9) "m10"
    { name := "m10", expansion := "m11()" } (macroCallCST "m11")
    (chainCtx ["m1", "m2", "m3", "m4", "m5", "m6", "m7", "m8", "m9", "m10"] 10) rfl rfl]
  rw [buildAst_macroCallCST
    (fun n => expandMacroAliasF 2 n "m11()" (chainCtx ["m1", "m2", "m3", "m4", "m5", "m6", "m7", "m8", "m9", "m10"] 10))
    "m11()" (chainCtx ["m1", "m2", "m3", "m4", "m5", "m6", "m7", "m8", "m9", "m10"] 10) "m11" (.error e) h]
  rfl

/-- Chain step 9: the error of expanding `m10()` propagates through the
expansion of `m9()`. -/
theorem chainStep9 (e : BuildError)
    (h : expandMacroAliasF 3 (macroCallInner "m10") "m10()"
      (chainCtx ["m1", "m2", "m3", "m4", "m5", "m6", "m7", "m8", "m9"] 9) = .error e) :
    expandMacroAliasF 4 (macroCallInner "m9") "m9()"
      (chainCtx ["m1", "m2", "m3", "m4", "m5", "m6", "m7", "m8"] 8) = .error e := by
  rw [show (4 : Nat) = 3 + 1 from rfl]
  rw [expandMacroAliasF_succ_ok 3 (macroCallInner "m9") "m9()"
    (chainCtx ["m1", "m2", "m3", "m4", "m5", "m6", "m7", "m8"] 8) "m9"
    { name := "m9", expansion := "m10()" } (macroCallCST "m10")
    (chainCtx ["m1", "m2", "m3", "m4", "m5", "m6", "m7", "m8", "m9"] 9) rfl rfl]
  rw [buildAst_macroCallCST
    (fun n => expandMacroAliasF 3 n "m10()" (chainCtx ["m1", "m2", "m3", "m4", "m5", "m6", "m7", "m8", "m9"] 9))
    "m10()" (chainCtx ["m1", "m2", "m3", "m4", "m5", "m6", "m7", "m8", "m9"] 9) "m10" (.error e) h]
  rfl

/-- Chain step 8: the error of expanding `m9()` propagates through the
expansion of `m8()`. -/
theorem chainStep8 (e : BuildError)
    (h : expandMacroAliasF 4 (macroCallInner "m9") "m9()"
      (chainCtx ["m1", "m2", "m3", "m4", "m5", "m6", "m7", "m8"] 8) = .error e) :
    expandMacroAliasF 5 (macroCallInner "m8") "m8()"
      (chainCtx ["m1", "m2", "m3", "m4", "m5", "m6", "m7"] 7) = .error e := by
  rw [show (5 : Nat) = 4 + 1 from rfl]
  rw [expandMacroAliasF_succ_ok 4 (macroCallInner "m8") "m8()"
    (chainCtx ["m1", "m2", "m3", "m4", "m5", "m6", "m7"] 7) "m8"
    { name := "m8", expansion := "m9()" } (macroCallCST "m9")
    (chainCtx ["m1", "m2", "m3", "m4", "m5", "m6", "m7", "m8"] 8) rfl rfl]
  rw [buildAst_macroCallCST
    (fun n => expandMacroAliasF 4 n "m9()" (chainCtx ["m1", "m2", "m3", "m4", "m5", "m6", "m7", "m8"] 8))
    "m9()" (chainCtx ["m1", "m2", "m3", "m4", "m5", "m6", "m7", "m8"] 8) "m9" (.error e) h]
  rfl

/-- Chain step 7: the error of expanding `m8()` propagates through the
expansion of `m7()`. -/
theorem chainStep7 (e : BuildError)
    (h : expandMacroAliasF 5 (macroCallInner "m8") "m8()"
      (chainCtx ["m1", "m2", "m3", "m4", "m5", "m6", "m7"] 7) = .error e) :
    expandMacroAliasF 6 (macroCallInner "m7") "m7()"
      (chainCtx ["m1", "m2", "m3", "m4", "m5", "m6"] 6) = .error e := by
  rw [show (6 : Nat) = 5 + 1 from rfl]
  rw [expandMacroAliasF_succ_ok 5 (macroCallInner "m7") "m7()"
    (chainCtx ["m1", "m2", "m3", "m4", "m5", "m6"] 6) "m7"
    { name := "m7", expansion := "m8()" } (macroCallCST "m8")
    (chainCtx ["m1", "m2", "m3", "m4", "m5", "m6", "m7"] 7) rfl rfl]
  rw [buildAst_macroCallCST
    (fun n => expandMacroAliasF 5 n "m8()" (chainCtx ["m1", "m2", "m3", "m4", "m5", "m6", "m7"] 7))
    "m8()" (chainCtx ["m1", "m2", "m3", "m4", "m5", "m6", "m7"] 7) "m8" (.error e) h]
  rfl

/-- Chain step 6: the error of expanding `m7()` propagates through the
expansion of `m6()`. -/
theorem chainStep6 (e : BuildError)
    (h : expandMacroAliasF 6 (macroCallInner "m7") "m7()"
      (chainCtx ["m1", "m2", "m3", "m4", "m5", "m6"] 6) = .error e) :
    expandMacroAliasF 7 (macroCallInner "m6") "m6()"
      (chainCtx ["m1", "m2", "m3", "m4", "m5"] 5) = .error e := by
  rw [show (7 : Nat) = 6 + 1 from rfl]
  rw [expandMacroAliasF_succ_ok 6 (macroCallInner "m6") "m6()"
    (chainCtx ["m1", "m2", "m3", "m4", "m5"] 5) "m6"
    { name := "m6", expansion := "m7()" } (macroCallCST "m7")
    (chainCtx ["m1", "m2", "m3", "m4", "m5", "m6"] 6) rfl rfl]
  rw [buildAst_macroCallCST
    (fun n => expandMacroAliasF 6 n "m7()" (chainCtx ["m1", "m2", "m3", "m4", "m5", "m6"] 6))
    "m7()" (chainCtx ["m1", "m2", "m3", "m4", "m5", "m6"] 6) "m7" (.error e) h]
  rfl

/-- Chain step 5: the error of expanding `m6()` propagates through the
expansion of `m5()`. -/
theorem chainStep5 (e : BuildError)
    (h : expandMacroAliasF 7 (macroCallInner "m6") "m6()"
      (chainCtx ["m1", "m2", "m3", "m4", "m5"] 5) = .error e) :
    expandMacroAliasF 8 (macroCallInner "m5") "m5()"
      (chainCtx ["m1", "m2", "m3", "m4"] 4) = .error e := by
  rw [show (8 : Nat) = 7 + 1 from rfl]
  rw [expandMacroAliasF_succ_ok 7 (macroCallInner "m5") "m5()"
    (chainCtx ["m1", "m2", "m3", "m4"] 4) "m5"
    { name := "m5", expansion := "m6()" } (macroCallCST "m6")
    (chainCtx ["m1", "m2", "m3", "m4", "m5"] 5) rfl rfl]
  rw [buildAst_macroCallCST
    (fun n => expandMacroAliasF 7 n "m6()" (chainCtx ["m1", "m2", "m3", "m4", "m5"] 5))
    "m6()" (chainCtx ["m1", "m2", "m3", "m4", "m5"] 5) "m6" (.error e) h]
  rfl

/-- Chain step 4: the error of expanding `m5()` propagates through the
expansion of `m4()`. -/
theorem chainStep4 (e : BuildError)
    (h : expandMacroAliasF 8 (macroCallInner "m5") "m5()"
      (chainCtx ["m1", "m2", "m3", "m4"] 4) = .error e) :
    expandMacroAliasF 9 (macroCallInner "m4") "m4()"
      (chainCtx ["m1", "m2", "m3"] 3) = .error e := by
  rw [show (9 : Nat) = 8 + 1 from rfl]
  rw [expandMacroAliasF_succ_ok 8 (macroCallInner "m4") "m4()"
    (chainCtx ["m1", "m2", "m3"] 3) "m4"
    { name := "m4", expansion := "m5()" } (macroCallCST "m5")
    (chainCtx ["m1", "m2", "m3", "m4"] 4) rfl rfl]
  rw [buildAst_macroCallCST
    (fun n => expandMacroAliasF 8 n "m5()" (chainCtx ["m1", "m2", "m3", "m4"] 4))
    "m5()" (chainCtx ["m1", "m2", "m3", "m4"] 4) "m5" (.error e) h]
  rfl

/-- Chain step 3: the error of expanding `m4()` propagates through the
expansion of `m3()`. -/
theorem chainStep3 (e : BuildError)
    (h : expandMacroAliasF 9 (macroCallInner "m4") "m4()"
      (chainCtx ["m1", "m2", "m3"] 3) = .error e) :
    expandMacroAliasF 10 (macroCallInner "m3") "m3()"
      (chainCtx ["m1", "m2"] 2) = .error e := by
  rw [show (10 : Nat) = 9 + 1 from rfl]
  rw [expandMacroAliasF_succ_ok 9 (macroCallInner "m3") "m3()"
    (chainCtx ["m1", "m2"] 2) "m3"
    { name := "m3", expansion := "m4()" } (macroCallCST "m4")
    (chainCtx ["m1", "m2", "m3"] 3) rfl rfl]
  rw [buildAst_macroCallCST
    (fun n => expandMacroAliasF 9 n "m4()" (chainCtx ["m1", "m2", "m3"] 3))
    "m4()" (chainCtx ["m1", "m2", "m3"] 3) "m4" (.error e) h]
  rfl

/-- Chain step 2: the error of expanding `m3()` propagates through the
expansion of `m2()`. -/
theorem chainStep2 (e : BuildError)
    (h : expandMacroAliasF 10 (macroCallInner "m3") "m3()"
      (chainCtx ["m1", "m2"] 2) = .error e) :
    expandMacroAliasF 11 (macroCallInner "m2") "m2()"
      (chainCtx ["m1"] 1) = .error e := by
  rw [show (11 : Nat) = 10 + 1 from rfl]
  rw [expandMacroAliasF_succ_ok 10 (macroCallInner "m2") "m2()"
    (chainCtx ["m1"] 1) "m2"
    { name := "m2", expansion := "m3()" } (macroCallCST "m3")
    (chainCtx ["m1", "m2"] 2) rfl rfl]
  rw [buildAst_macroCallCST
    (fun n => expandMacroAliasF 10 n "m3()" (chainCtx ["m1", "m2"] 2))
    "m3()" (chainCtx ["m1", "m2"] 2) "m3" (.error e) h]
  rfl

/-- Chain step 1: the error of expanding `m2()` propagates through the
expansion of `m1()`. -/
theorem chainStep1 (e : BuildError)
    (h : expandMacroAliasF 11 (macroCallInner "m2") "m2()"
      (chainCtx ["m1"] 1) = .error e) :
    expandMacroAliasF 12 (macroCallInner "m1") "m1()"
      (chainCtx [] 0) = .error e := by
  rw [show (12 : Nat) = 11 + 1 from rfl]
  rw [expandMacroAliasF_succ_ok 11 (macroCallInner "m1") "m1()"
    (chainCtx [] 0) "m1"
    { name := "m1", expansion := "m2()" } (macroCallCST "m2")
    (chainCtx ["m1"] 1) rfl rfl]
  rw [buildAst_macroCallCST
    (fun n => expandMacroAliasF 11 n "m2()" (chainCtx ["m1"] 1))
    "m2()" (chainCtx ["m1"] 1) "m2" (.error e) h]
  rfl

/-- The 11-alias chain stops with the depth-ceiling diagnostic. -/
theorem chainExpansionResult :
    expandMacroAliasF 12 (macroCallInner "m1") "m1()" (chainCtx [] 0) =
      .error chainDepthError :=
  chainStep1 _ (chainStep2 _ (chainStep3 _ (chainStep4 _ (chainStep5 _
    (chainStep6 _ (chainStep7 _ (chainStep8 _ (chainStep9 _
      (chainStep10 _ chainBase)))))))))

end Frontend

namespace Frontend

/-- When syntax is clean, context creation succeeds and the AST build fails,
`analyzeQuery` reports exactly the build failure. -/
theorem analyzeQuery_build_error (parse : String → SNode) (input : String)
    (options : AnalyzeQueryOptions) (ctx : AstBuildContext) (e : BuildError)
    (hsd : collectSyntaxDiagnostics (parse input) input = [])
    (hcc : createAstBuildContext options.languageSpec input parse = .ok ctx)
    (hb : buildAstFromQuery (parse input) input ctx = .error e) :
    analyzeQuery parse input options = analyzeFailure e input := by
  simp only [analyzeQuery, hsd, hcc, hb, List.length_nil]
  simp

/-- Analysis of the 11-alias chain input `m1()` fails with the depth
diagnostic. -/
theorem chainAnalyzeFailure :
    analyzeQuery demoParse "m1()" demoOptsChain =
      analyzeFailure chainDepthError "m1()" := by
  have hb : buildAstFromQuery (demoParse "m1()") "m1()" (chainCtx [] 0) =
      .error chainDepthError := by
    have h1 : demoParse "m1()" = macroCallCST "m1" := rfl
    rw [h1]
    show buildAstFromQueryL
      (fun n => expandMacroAliasF 12 n "m1()" (chainCtx [] 0))
      "m1()" (chainCtx [] 0) (macroCallCST "m1") = .error chainDepthError
    exact buildAst_macroCallCST _ "m1()" _ "m1" _ chainExpansionResult
  exact analyzeQuery_build_error demoParse "m1()" demoOptsChain
    (chainCtx [] 0) chainDepthError rfl rfl hb

end Frontend

/-- C2: macro expansion always terminates. Before recursing into an alias,
a name already on the in-progress call stack fails with
`MACRO_EXPANSION_CYCLE`, and a depth at the fixed ceiling of 10 fails with
`MACRO_EXPANSION_DEPTH_EXCEEDED`; any fuel with at least the headroom the
API supplies computes the same, fuel-marker-free result (the recursion is
bounded); and concretely the mutually recursive aliases `a() → b() → a()`
yield `MACRO_EXPANSION_CYCLE` while the chain of 11 aliases
`m1() → … → m11()` yields `MACRO_EXPANSION_DEPTH_EXCEEDED`. -/
theorem C2_macro_expansion_terminates :
    (∀ (fuel : Nat) (node identifier : Frontend.SNode) (input : String)
        (context : Frontend.AstBuildContext)
        (aliasSpec : Frontend.MacroAliasSpec),
      Frontend.expectChild node "Identifier" = .ok identifier →
      context.macroAliases.lookup (Frontend.textOf identifier input) =
        some aliasSpec →
      context.macroStack.contains (Frontend.textOf identifier input) = true →
      Frontend.expandMacroAliasF (fuel + 1) node input context =
        .error (.diag "MACRO_EXPANSION_CYCLE"
          ("Macro alias cycle detected: " ++ String.intercalate " -> "
            (context.macroStack ++ [Frontend.textOf identifier input]))
          (Frontend.spanOf node))) ∧
    (∀ (fuel : Nat) (node identifier : Frontend.SNode) (input : String)
        (context : Frontend.AstBuildContext)
        (aliasSpec : Frontend.MacroAliasSpec),
      Frontend.expectChild node "Identifier" = .ok identifier →
      context.macroAliases.lookup (Frontend.textOf identifier input) =
        some aliasSpec →
      context.macroStack.contains (Frontend.textOf identifier input) =
        false →
      Frontend.MAX_MACRO_EXPANSION_DEPTH ≤ context.macroDepth →
      Frontend.expandMacroAliasF (fuel + 1) node input context =
        .error (.diag "MACRO_EXPANSION_DEPTH_EXCEEDED"
          ("Macro alias expansion depth exceeded (" ++
            toString Frontend.MAX_MACRO_EXPANSION_DEPTH ++ ")")
          (Frontend.spanOf node))) ∧
    (∀ (f g : Nat) (node : Frontend.SNode) (input : String)
        (context : Frontend.AstBuildContext),
      context.macroDepth ≤ Frontend.MAX_MACRO_EXPANSION_DEPTH →
      Frontend.MAX_MACRO_EXPANSION_DEPTH + 2 ≤ context.macroDepth + f →
      f ≤ g →
      Frontend.expandMacroAliasF f node input context =
        Frontend.expandMacroAliasF g node input context ∧
      Frontend.expandMacroAliasF f node input context ≠
        .error .fuelExhausted) ∧
    ((Frontend.analyzeQuery Frontend.demoParse "a()"
        Frontend.demoOptsCycle).ast = none ∧
      (Frontend.analyzeQuery Frontend.demoParse "a()"
          Frontend.demoOptsCycle).syntaxDiagnostics.map (fun d => d.code) =
        ["MACRO_EXPANSION_CYCLE"]) ∧
    ((Frontend.analyzeQuery Frontend.demoParse "m1()"
        Frontend.demoOptsChain).ast = none ∧
      (Frontend.analyzeQuery Frontend.demoParse "m1()"
          Frontend.demoOptsChain).syntaxDiagnostics.map (fun d => d.code) =
        ["MACRO_EXPANSION_DEPTH_EXCEEDED"]) := by
  refine ⟨?_, ?_, Frontend.expandStable, ⟨rfl, rfl⟩, ?_⟩
  · intro fuel node identifier input context aliasSpec h1 h2 h3
    exact Frontend.expandMacroAliasF_succ_error fuel node input context _
      (Frontend.macroAliasGuards_cycle node input context identifier
        aliasSpec h1 h2 h3)
  · intro fuel node identifier input context aliasSpec h1 h2 h3 h4
    exact Frontend.expandMacroAliasF_succ_error fuel node input context _
      (Frontend.macroAliasGuards_depth_exceeded node input context identifier
        aliasSpec h1 h2 h3 h4)
  · rw [Frontend.chainAnalyzeFailure]
    exact ⟨rfl, rfl⟩

/-- Witness for C2: the cycle guard fires concretely when `a` is expanded
with `a` already on the stack, and the expansion of `isOpen()` is
fuel-stable. -/
theorem C2_witness :
    Frontend.expandMacroAliasF 1 (Frontend.macroCallInner "a") "a()"
        { languageSpec := Frontend.demoSpecCycle,
          macroAliases := [("a", { name := "a", expansion := "b()" }),
                           ("b", { name := "b", expansion := "a()" })],
          macroStack := ["a"], macroDepth := 1,
          parse := Frontend.demoParse } =
      .error (.diag "MACRO_EXPANSION_CYCLE"
        "Macro alias cycle detected: a -> a" ⟨0, 3⟩) ∧
    Frontend.expandMacroAliasF 12 (Frontend.macroCallInner "isOpen")
        "isOpen()" Frontend.demoCtxIsOpen =
      Frontend.expandMacroAliasF 13 (Frontend.macroCallInner "isOpen")
        "isOpen()" Frontend.demoCtxIsOpen :=
  ⟨C2_macro_expansion_terminates.1 0 (Frontend.macroCallInner "a")
      (Frontend.leafNode "Identifier" 0 1) "a()"
      { languageSpec := Frontend.demoSpecCycle,
        macroAliases := [("a", { name := "a", expansion := "b()" }),
                         ("b", { name := "b", expansion := "a()" })],
        macroStack := ["a"], macroDepth := 1,
        parse := Frontend.demoParse }
      { name := "a", expansion := "b()" } rfl rfl rfl,
    (C2_macro_expansion_terminates.2.2.1 12 13
      (Frontend.macroCallInner "isOpen") "isOpen()" Frontend.demoCtxIsOpen
      (by decide) (by decide) (by decide)).1⟩

namespace Completion

/-- The four characters of `isWhitespaceChar` are JS whitespace. -/
theorem isJsWhitespace_of_isWhitespaceChar (c : Char)
    (h : isWhitespaceChar (some c) = true) :
    Frontend.isJsWhitespace c = true := by
  simp [isWhitespaceChar] at h
  rcases h with ((h | h) | h) | h <;> subst h <;> rfl

/-- A whitespace-only string trims to empty. -/
theorem jsTrim_eq_empty (s : String)
    (h : ∀ c ∈ s.toList, Frontend.isJsWhitespace c = true) :
    Frontend.jsTrim s = "" := by
  have hd : s.toList.dropWhile Frontend.isJsWhitespace = [] :=
    List.dropWhile_eq_nil_iff.mpr (fun c hc => by simp [h c hc])
  unfold Frontend.jsTrim
  rw [hd]
  rfl

/-- The backwards whitespace scan over a whitespace-only prefix finds no
character. -/
theorem lastNonWs_whitespace (chars : List Char) :
    ∀ (pos : Nat),
      (∀ j, j < pos → chars.get? j = none ∨
        isWhitespaceChar (chars.get? j) = true) →
      (match lastNonWsFrom chars pos with
       | none => (none : Option Char)
       | some i => chars.get? i) = none := by
  intro pos
  induction pos with
  | zero => intro h; rfl
  | succ i ih =>
    intro h
    rw [lastNonWsFrom]
    by_cases hc : isWhitespaceChar (chars.get? i) = true
    · rw [if_pos hc]
      exact ih (fun j hj => h j (by omega))
    · rw [if_neg hc]
      show chars.get? i = none
      rcases h i (by omega) with hn | hw
      · exact hn
      · exact absurd hw hc

/-- Over a whitespace-only prefix, the parsed cursor records no last
non-whitespace character. -/
theorem parseCursor_lastNonWhitespaceChar_none
    (resolveAt : Nat → List Frontend.SNode) (query : String) (pos : Nat)
    (h : ∀ c ∈ (query.take pos).toList, isWhitespaceChar (some c) = true) :
    (parseCursor resolveAt query pos).lastNonWhitespaceChar = none := by
  have h1 : (query.take pos).toList = query.toList.take pos :=
    String.data_take query pos
  have hidx : ∀ j, j < pos → query.toList.get? j = none ∨
      isWhitespaceChar (query.toList.get? j) = true := by
    intro j hj
    cases hg : query.toList.get? j with
    | none => exact Or.inl rfl
    | some c =>
      right
      have h2 : (query.toList.take pos).get? j = some c := by
        rw [List.get?_eq_getElem?, List.getElem?_take_of_lt hj,
          ← List.get?_eq_getElem?]
        exact hg
      have hc : c ∈ (query.take pos).toList := by
        rw [h1]
        exact List.get?_mem h2
      exact h c hc
  show (match lastNonWsFrom query.toList pos with
    | none => (none : Option Char)
    | some i => query.toList.get? i) = none
  exact lastNonWs_whitespace query.toList pos hidx

/-- Without a last non-whitespace character, the in-list-value guard cannot
fire. -/
theorem isInList_false_of_no_char (cursor : ParsedCursor)
    (h : cursor.lastNonWhitespaceChar = none) :
    isInListValueElementStartContext cursor = false := by
  simp [isInListValueElementStartContext, h]

/-- A cursor whose `before` text trims to empty is a clause start. -/
theorem isClauseStart_of_blank (cursor : ParsedCursor)
    (h : Frontend.jsTrim cursor.before = "") :
    isClauseStartContext cursor = true := by
  simp [isClauseStartContext, h]

end Completion

/-- C9: `classifyCursor` (the classification chain of
`inferCompletionSyntaxContext`) returns exactly one tagged context, chosen
in the fixed first-match priority order — `inListValueStart` before
`clauseStart` before `afterNot` before `afterField` before the partial
contexts before `afterInOperator` before `afterCompareOperator` before
`clauseBoundary` before `fallback`; and for every query whose text before
the cursor is empty or whitespace-only, the result is `clauseStart`. -/
theorem C9_completion_priority :
    (∀ (cursor : Completion.ParsedCursor)
        (spec : Frontend.QueryLanguageSpec),
      (Completion.isInListValueElementStartContext cursor = true →
        Completion.classifyCursor cursor spec =
          .inListValueStart
            (Completion.fieldNameFromEnclosingComparison cursor)) ∧
      (Completion.isInListValueElementStartContext cursor = false →
        Completion.isClauseStartContext cursor = true →
        Completion.classifyCursor cursor spec = .clauseStart) ∧
      (Completion.isInListValueElementStartContext cursor = false →
        Completion.isClauseStartContext cursor = false →
        Completion.isAfterNotKeywordContext cursor = true →
        Completion.classifyCursor cursor spec = .afterNot) ∧
      (∀ exactFieldToken,
        Completion.isInListValueElementStartContext cursor = false →
        Completion.isClauseStartContext cursor = false →
        Completion.isAfterNotKeywordContext cursor = false →
        Completion.fieldNameAtTrimmedIdentifier cursor spec =
          some exactFieldToken →
        Completion.classifyCursor cursor spec =
          .afterField exactFieldToken) ∧
      (Completion.isInListValueElementStartContext cursor = false →
        Completion.isClauseStartContext cursor = false →
        Completion.isAfterNotKeywordContext cursor = false →
        Completion.fieldNameAtTrimmedIdentifier cursor spec = none →
        ¬cursor.trailingIdentifier = "" →
        Completion.inferPartialIdentifierContext cursor =
          some .clauseStart →
        Completion.classifyCursor cursor spec =
          .partialClauseStart cursor.trailingIdentifier) ∧
      (Completion.isInListValueElementStartContext cursor = false →
        Completion.isClauseStartContext cursor = false →
        Completion.isAfterNotKeywordContext cursor = false →
        Completion.fieldNameAtTrimmedIdentifier cursor spec = none →
        ¬cursor.trailingIdentifier = "" →
        Completion.inferPartialIdentifierContext cursor = some .afterNot →
        Completion.classifyCursor cursor spec =
          .partialAfterNot cursor.trailingIdentifier) ∧
      (Completion.isInListValueElementStartContext cursor = false →
        Completion.isClauseStartContext cursor = false →
        Completion.isAfterNotKeywordContext cursor = false →
        Completion.fieldNameAtTrimmedIdentifier cursor spec = none →
        (if ¬cursor.trailingIdentifier = "" then
          Completion.inferPartialIdentifierContext cursor
        else none) = none →
        Completion.isAfterInOperatorContext cursor = true →
        Completion.classifyCursor cursor spec = .afterInOperator) ∧
      (Completion.isInListValueElementStartContext cursor = false →
        Completion.isClauseStartContext cursor = false →
        Completion.isAfterNotKeywordContext cursor = false →
        Completion.fieldNameAtTrimmedIdentifier cursor spec = none →
        (if ¬cursor.trailingIdentifier = "" then
          Completion.inferPartialIdentifierContext cursor
        else none) = none →
        Completion.isAfterInOperatorContext cursor = false →
        Completion.isAfterCompareOperatorContext cursor = true →
        Completion.classifyCursor cursor spec =
          .afterCompareOperator
            (Completion.fieldNameFromEnclosingComparison cursor)) ∧
      (Completion.isInListValueElementStartContext cursor = false →
        Completion.isClauseStartContext cursor = false →
        Completion.isAfterNotKeywordContext cursor = false →
        Completion.fieldNameAtTrimmedIdentifier cursor spec = none →
        (if ¬cursor.trailingIdentifier = "" then
          Completion.inferPartialIdentifierContext cursor
        else none) = none →
        Completion.isAfterInOperatorContext cursor = false →
        Completion.isAfterCompareOperatorContext cursor = false →
        Completion.isClauseBoundaryContext cursor = true →
        Completion.classifyCursor cursor spec = .clauseBoundary) ∧
      (Completion.isInListValueElementStartContext cursor = false →
        Completion.isClauseStartContext cursor = false →
        Completion.isAfterNotKeywordContext cursor = false →
        Completion.fieldNameAtTrimmedIdentifier cursor spec = none →
        (if ¬cursor.trailingIdentifier = "" then
          Completion.inferPartialIdentifierContext cursor
        else none) = none →
        Completion.isAfterInOperatorContext cursor = false →
        Completion.isAfterCompareOperatorContext cursor = false →
        Completion.isClauseBoundaryContext cursor = false →
        Completion.classifyCursor cursor spec = .fallback)) ∧
    (∀ (resolveAt : Nat → List Frontend.SNode) (query : String) (pos : Nat)
        (spec : Frontend.QueryLanguageSpec),
      (∀ c ∈ (query.take pos).toList,
        Completion.isWhitespaceChar (some c) = true) →
      Completion.inferCompletionSyntaxContext resolveAt query pos spec =
        .clauseStart) := by
  constructor
  · intro cursor spec
    refine ⟨?_, ?_, ?_, ?_, ?_, ?_, ?_, ?_, ?_, ?_⟩
    · intro h1
      simp [Completion.classifyCursor, h1]
    · intro h1 h2
      simp [Completion.classifyCursor, h1, h2]
    · intro h1 h2 h3
      simp [Completion.classifyCursor, h1, h2, h3]
    · intro exactFieldToken h1 h2 h3 h4
      simp [Completion.classifyCursor, h1, h2, h3, h4]
    · intro h1 h2 h3 h4 h5 h6
      simp [Completion.classifyCursor, h1, h2, h3, h4, h5, h6]
    · intro h1 h2 h3 h4 h5 h6
      simp [Completion.classifyCursor, h1, h2, h3, h4, h5, h6]
    · intro h1 h2 h3 h4 h5 h6
      simp [Completion.classifyCursor, h1, h2, h3, h4, h5, h6]
    · intro h1 h2 h3 h4 h5 h6 h7
      simp [Completion.classifyCursor, h1, h2, h3, h4, h5, h6, h7]
    · intro h1 h2 h3 h4 h5 h6 h7 h8
      simp [Completion.classifyCursor, h1, h2, h3, h4, h5, h6, h7, h8]
    · intro h1 h2 h3 h4 h5 h6 h7 h8
      simp [Completion.classifyCursor, h1, h2, h3, h4, h5, h6, h7, h8]
  · intro resolveAt query pos spec hws
    have hlnw := Completion.parseCursor_lastNonWhitespaceChar_none resolveAt
      query pos hws
    have hbefore : (Completion.parseCursor resolveAt query pos).before =
        query.take pos := rfl
    have htrim : Frontend.jsTrim
        (Completion.parseCursor resolveAt query pos).before = "" := by
      rw [hbefore]
      exact Completion.jsTrim_eq_empty _ (fun c hc =>
        Completion.isJsWhitespace_of_isWhitespaceChar c (hws c hc))
    have h1 := Completion.isInList_false_of_no_char _ hlnw
    have h2 := Completion.isClauseStart_of_blank _ htrim
    show Completion.classifyCursor
      (Completion.parseCursor resolveAt query pos) spec = .clauseStart
    simp [Completion.classifyCursor, h1, h2]

/-- Witness for C9: with a whitespace-only prefix before the cursor, the
inferred completion context is `clauseStart`. -/
theorem C9_witness :
    Completion.inferCompletionSyntaxContext (fun _ => []) "  status" 2
      Frontend.demoSpecBool = .clauseStart :=
  C9_completion_priority.2 (fun _ => []) "  status" 2 Frontend.demoSpecBool
    (by decide)
